import Mathlib

/-!
# game-wizard: the polling hook and the job panels

A shallow embedding of `src/hooks/usePoll.js`, `src/components/CreatePanel.jsx`
and `src/components/ImportPanel.jsx`.

Conventions of the embedding.

* Durations handed to the hook (`interval`, `maxInterval`, `jitterMs`,
  `timeout`) are whole numbers of milliseconds, as at every call site of the
  repository (defaults 3000 / 15000 / 250 / 120000, panels 2500 / 3000 /
  180000).  The effective interval `curIntervalRef.current` is an integer,
  because a `Retry-After` header may parse to a negative number.
* `backoffFactor` and the value of `Math.random()` are exact rationals;
  `Math.ceil` / `Math.floor` are `Int.ceil` / `Int.floor`.
* `NaN` is `none` in the one place the source can produce it
  (`parseInt(...) * 1000`).
* A poll cycle is split at its `await`: the function `settle` is the code of
  `tick` that runs once the awaited call has resolved or rejected.
-/

namespace GameWizard

/-! ## `usePoll` -/

/-- The value a rejected call carries, reduced to the parts `tick` reads:
`e?.name`, `e?.message`, `e?.response?.status` and the two spellings of the
retry header in `e?.response?.headers`. -/
structure PollError where
  name : String
  message : String
  status : Option Nat
  retryAfterLower : Option String
  retryAfterUpper : Option String
deriving DecidableEq, Repr

/-- The options object of `usePoll`, with the defaults of its parameter list. -/
structure PollConfig (α : Type) where
  enabled : Bool := true
  interval : Nat := 3000
  maxInterval : Nat := 15000
  backoffFactor : ℚ := 9 / 5
  jitterMs : Nat := 250
  timeout : Nat := 120000
  stopWhen : Option (α → Bool) := none
  backoffStatuses : List Nat := [429, 503]

/-- The three `useState` cells together with `startedRef` and `curIntervalRef`. -/
structure PollState (α : Type) where
  data : Option α
  error : Option PollError
  running : Bool
  started : Int
  curInterval : Int

/-- How the awaited call of one cycle ended. -/
inductive Outcome (α : Type) where
  | resolved (res : α)
  | rejected (e : PollError)

/-- White space and line terminators skipped by `parseInt`, by code point. -/
def isJsWhitespace (c : Char) : Bool :=
  c.toNat = 32 || c.toNat = 9 || c.toNat = 10 || c.toNat = 11 || c.toNat = 12 ||
  c.toNat = 13 || c.toNat = 160 || c.toNat = 5760 ||
  (decide (8192 ≤ c.toNat) && decide (c.toNat ≤ 8202)) ||
  c.toNat = 8232 || c.toNat = 8233 || c.toNat = 8239 || c.toNat = 8287 ||
  c.toNat = 12288 || c.toNat = 65279

/-- Value of a string of decimal digits. -/
def digitsValue (ds : List Char) : Nat :=
  ds.foldl (fun acc c => 10 * acc + (c.toNat - 48)) 0

/-- JavaScript `parseInt(s, 10)`: leading white space, an optional sign, the
longest run of decimal digits; `none` stands for `NaN`. -/
def parseInt10 (s : String) : Option Int :=
  let cs := s.toList.dropWhile isJsWhitespace
  let signed : Bool × List Char :=
    match cs with
    | c :: t => if c.toNat = 45 then (true, t) else if c.toNat = 43 then (false, t) else (false, cs)
    | [] => (false, cs)
  let ds := signed.2.takeWhile Char.isDigit
  if ds.isEmpty then none
  else some (if signed.1 then - (digitsValue ds : Int) else (digitsValue ds : Int))

/-- The header lookup of lines 68-70: lower-case spelling first, `??` falls
through only on a missing value. -/
def retryAfterHeader (e : PollError) : Option String :=
  match e.retryAfterLower with
  | some h => some h
  | none => e.retryAfterUpper

/-- Line 71: `h ? parseInt(String(h), 10) * 1000 : 0`; `none` is `NaN`. -/
def retryAfterMs (e : PollError) : Option Int :=
  match retryAfterHeader e with
  | none => some 0
  | some h => if h = "" then some 0 else (parseInt10 h).map (fun s => s * 1000)

/-- The right operand of `||` at line 75. -/
def computedBackoff {α : Type} (cfg : PollConfig α) (cur : Int) : Int :=
  min (cfg.maxInterval : Int) (Int.ceil ((cur : ℚ) * cfg.backoffFactor))

/-- Lines 73-75: `retryAfterMs || Math.min(...)`; `0` and `NaN` are falsy. -/
def nextInterval {α : Type} (cfg : PollConfig α) (cur : Int) (e : PollError) : Int :=
  match retryAfterMs e with
  | some v => if v = 0 then computedBackoff cfg cur else v
  | none => computedBackoff cfg cur

/-- Line 86, with `rnd` the value returned by `Math.random()`. -/
def jitter {α : Type} (cfg : PollConfig α) (rnd : ℚ) : Int :=
  Int.floor (rnd * (cfg.jitterMs : ℚ)) - ((cfg.jitterMs / 2 : Nat) : Int)

/-- Line 87. -/
def nextDelay {α : Type} (cfg : PollConfig α) (rnd : ℚ) (cur : Int) : Int :=
  max 0 (cur + jitter cfg rnd)

/-- Line 66: `backoffStatuses.includes(status)`. -/
def isBackoffStatus {α : Type} (cfg : PollConfig α) (status : Option Nat) : Bool :=
  match status with
  | some s => cfg.backoffStatuses.contains s
  | none => false

/-- The error built at line 54. -/
def timeoutError : PollError :=
  { name := "Error", message := "Polling timed out", status := none,
    retryAfterLower := none, retryAfterUpper := none }

/-- Line 48: `stopWhen?.(res)`. -/
def stopHolds {α : Type} (cfg : PollConfig α) (res : α) : Bool :=
  match cfg.stopWhen with
  | some p => p res
  | none => false

/-- Lines 85-89: the state is kept and `setTimeout(tick, delay)` is called. -/
def schedule {α : Type} (cfg : PollConfig α) (rnd : ℚ) (st : PollState α) :
    PollState α × Option Int :=
  (st, some (nextDelay cfg rnd st.curInterval))

/-- The `catch` block, lines 56-83, followed by the scheduling code when the
block falls through.  The second component is the delay given to
`setTimeout`, `none` when the cycle returns without scheduling. -/
def catchBlock {α : Type} (cfg : PollConfig α) (cancelled : Bool) (rnd : ℚ)
    (st : PollState α) (e : PollError) : PollState α × Option Int :=
  if cancelled then (st, none)
  else if e.name = "AbortError" then (st, none)
  else if isBackoffStatus cfg e.status then
    schedule cfg rnd { st with curInterval := nextInterval cfg st.curInterval e }
  else ({ st with error := some e, running := false }, none)

/-- The part of `tick` after the `await` (lines 41-89): `cancelled` is the
flag of the effect run that issued the call, `now` the value of `Date.now()`
and `rnd` the value of `Math.random()`. -/
def settle {α : Type} (cfg : PollConfig α) (cancelled : Bool) (now : Int) (rnd : ℚ)
    (st : PollState α) : Outcome α → PollState α × Option Int
  | Outcome.resolved res =>
    if cancelled then (st, none)
    else
      let st1 : PollState α := { st with data := some res, curInterval := cfg.interval }
      if stopHolds cfg res then ({ st1 with running := false }, none)
      else if now - st1.started > (cfg.timeout : Int) then
        catchBlock cfg cancelled rnd st1 timeoutError
      else schedule cfg rnd st1
  | Outcome.rejected e => catchBlock cfg cancelled rnd st e

/-- One settled call of a running session. -/
structure Cycle (α : Type) where
  outcome : Outcome α
  now : Int
  rnd : ℚ

/-- A session as the list of its settled calls: each cycle starts from the
state its predecessor left, and the session ends with the first cycle that
schedules nothing.  The result lists the state and the scheduled delay after
every cycle that ran. -/
def runCycles {α : Type} (cfg : PollConfig α) (st : PollState α) :
    List (Cycle α) → List (PollState α × Option Int)
  | [] => []
  | c :: cs =>
    let r := settle cfg false c.now c.rnd st c.outcome
    match r.2 with
    | some _ => r :: runCycles cfg r.1 cs
    | none => [r]

/-- Lines 99-103: the state a (re)start leaves before its first call. -/
def startSession {α : Type} (cfg : PollConfig α) (now : Int) : PollState α :=
  { data := none, error := none, running := true, started := now,
    curInterval := cfg.interval }

/-- A rejection with an HTTP status and, optionally, a lower-case retry header. -/
def httpError (status : Nat) (retryAfter : Option String) : PollError :=
  { name := "AxiosError", message := "Request failed", status := some status,
    retryAfterLower := retryAfter, retryAfterUpper := none }

/-- The configuration of a call that passes no option. -/
def defaultConfig (α : Type) : PollConfig α := {}

/-- Default options with a stop predicate on a Boolean result. -/
def stopOnTrue : PollConfig Bool := { stopWhen := some (fun b => b) }

/-- A rate-limited call without retry header, settled at time `now`. -/
def rateLimited (now : Int) (rnd : ℚ) : Cycle Unit :=
  { outcome := Outcome.rejected (httpError 429 none), now := now, rnd := rnd }

/-- A rate-limited call whose retry header reads `secs`. -/
def rateLimitedAfter (secs : String) (now : Int) (rnd : ℚ) : Cycle Unit :=
  { outcome := Outcome.rejected (httpError 429 (some secs)), now := now, rnd := rnd }

/-- A failure the hook absorbs: not an abort, status listed in
`backoffStatuses`. -/
def isRetryableFailure {α : Type} (cfg : PollConfig α) : Outcome α → Bool
  | Outcome.rejected e => e.name != "AbortError" && isBackoffStatus cfg e.status
  | Outcome.resolved _ => false

/-- The failure carries a retry header whose value is truthy at line 74. -/
def carriesRetryAfter {α : Type} : Outcome α → Bool
  | Outcome.rejected e =>
    match retryAfterMs e with
    | some v => v != 0
    | none => false
  | Outcome.resolved _ => false

/-- The successive values of `curIntervalRef.current` over a session. -/
def intervals {α : Type} (cfg : PollConfig α) (st : PollState α) (cs : List (Cycle α)) :
    List Int :=
  (runCycles cfg st cs).map (fun r => r.1.curInterval)

/-- The successive delays handed to `setTimeout` over a session. -/
def delays {α : Type} (cfg : PollConfig α) (st : PollState α) (cs : List (Cycle α)) :
    List (Option Int) :=
  (runCycles cfg st cs).map (fun r => r.2)

end GameWizard


namespace GameWizard

/-! ## The job record -/

/-- A status record as returned by `getGame`: `status` and `progress` may be
missing, `progress` may be fractional. -/
structure JobRecord where
  id : String
  name : String
  status : Option String
  progress : Option ℚ
deriving DecidableEq

/-- The expression `status?.progress` of both panels. -/
def serverProgress (status : Option JobRecord) : Option ℚ :=
  match status with
  | some r => r.progress
  | none => none

/-- The test `s.status === "completed" || Number(s.progress) >= 100` of the
stop predicates and of the completion effects (a missing progress compares
false). -/
def isCompleted (r : JobRecord) : Bool :=
  r.status == some "completed" ||
    (match r.progress with
      | some p => decide (100 ≤ p)
      | none => false)

/-- Truthiness of a job id: neither null nor the empty string. -/
def idTruthy (id : Option String) : Bool :=
  match id with
  | some s => s != ""
  | none => false

/-! ## `CreatePanel` -/

/-- The five phases of `CreatePanel`. -/
inductive Phase where
  | idle
  | creating
  | polling
  | done
  | error
deriving DecidableEq, Repr

/-- The state cells and refs of `CreatePanel`, the `data` of its `usePoll`
(`status`), whether the last run of the finish-flow effect returned its
cleanup function, and counters of the completion side effects. -/
structure CreateState where
  name : String
  jobId : Option String
  phase : Phase
  err : String
  inFlight : Bool
  resetTimer : Bool
  notifiedForId : Option String
  optProgress : ℚ
  ticker : Bool
  status : Option JobRecord
  finishCleanup : Bool
  onDoneCalls : Nat
  doneTransitions : Nat
  resetsScheduled : Nat

/-- The updater of line 36: `p < 95 ? p + 2 : 95`. -/
def tickerStep (p : ℚ) : ℚ :=
  if p < 95 then p + 2 else 95

/-- Lines 32-38: `startTicker`. -/
def startTicker (st : CreateState) : CreateState :=
  { st with optProgress := 1, ticker := true }

/-- Lines 40-43: `stopTicker`. -/
def stopTicker (st : CreateState) : CreateState :=
  { st with ticker := false }

/-- One firing of the interval started by `startTicker`. -/
def tickerTick (st : CreateState) : CreateState :=
  if st.ticker then { st with optProgress := tickerStep st.optProgress } else st

/-- Lines 161-166: the `progress` memo (every rational is finite). -/
def progress (st : CreateState) : ℚ :=
  let server : ℚ := (serverProgress st.status).getD 0
  let v : ℚ := max server st.optProgress
  max 0 (min 100 v)

/-- Lines 105-109: the snap-forward effect (`Number(x) || 0` is `x`). -/
def snapForwardEffect (st : CreateState) : CreateState :=
  match serverProgress st.status with
  | some x => { st with optProgress := max st.optProgress x }
  | none => st

/-- Lines 122-143: the body of the finish-flow effect.  An early `return`
leaves no cleanup function behind. -/
def finishEffect (st : CreateState) : CreateState :=
  match st.status with
  | none => { st with finishCleanup := false }
  | some r =>
    if st.phase ≠ Phase.polling then { st with finishCleanup := false }
    else if !isCompleted r || !idTruthy st.jobId then { st with finishCleanup := false }
    else if st.notifiedForId = st.jobId then { st with finishCleanup := false }
    else
      { st with
        notifiedForId := st.jobId
        ticker := false
        optProgress := 100
        phase := Phase.done
        doneTransitions := st.doneTransitions + 1
        onDoneCalls := st.onDoneCalls + 1
        resetTimer := true
        resetsScheduled := st.resetsScheduled + 1
        finishCleanup := true }

/-- Lines 144-149: the cleanup returned by the finish-flow effect, run before
the effect runs again. -/
def finishEffectCleanup (st : CreateState) : CreateState :=
  if st.finishCleanup then { st with resetTimer := false, finishCleanup := false } else st

/-- Lines 135-142: the callback of the auto-reset timer. -/
def autoReset (st : CreateState) : CreateState :=
  { st with
    phase := Phase.idle
    jobId := none
    name := ""
    optProgress := 0
    notifiedForId := none
    resetTimer := false }

/-- Lines 152-159: the effect that clears the ticker when the phase is idle,
done or error. -/
def safetyEffect (st : CreateState) : CreateState :=
  if st.phase = Phase.idle ∨ st.phase = Phase.done ∨ st.phase = Phase.error then
    { st with inFlight := false, ticker := false, optProgress := 0 }
  else st

/-- The commit that follows a change of `phase`: the effects that list
`phase` among their dependencies, in source order (the finish-flow effect
preceded by its cleanup, then the safety effect). -/
def phaseCommit (st : CreateState) : CreateState :=
  safetyEffect (finishEffect (finishEffectCleanup st))

/-- The hook publishes `rec` as `data`: the render with the new `status`,
then the snap-forward effect when `status?.progress` changed. -/
def statusRender (st : CreateState) (rec : Option JobRecord) : CreateState :=
  if serverProgress rec = serverProgress st.status then { st with status := rec }
  else snapForwardEffect { st with status := rec }

/-- The hook publishes `rec` as `data`: the render with the new `status` and
the effects of the panel that depend on it, in source order (snap-forward,
then the finish-flow effect preceded by its cleanup), followed by the commit
of the phase change when there is one.  The effect of the hook itself, which
runs in the same commit and clears `data` for the next render when the hook is
enabled, is `afterHook`; `receiveResult` applies both. -/
def deliverStatus (st : CreateState) (rec : Option JobRecord) : CreateState :=
  if rec = none ∧ st.status = none then st
  else
    let st3 : CreateState := finishEffect (finishEffectCleanup (statusRender st rec))
    if st3.phase = st.phase then st3 else phaseCommit st3

/-- The state in which `handleCreate` leaves the panel after `createGame`
returned the id `id` (lines 70-81). -/
def pollingStart (name id : String) : CreateState :=
  { name := name, jobId := some id, phase := Phase.polling, err := "", inFlight := false,
    resetTimer := false, notifiedForId := none, optProgress := 1, ticker := true,
    status := none, finishCleanup := false, onDoneCalls := 0, doneTransitions := 0,
    resetsScheduled := 0 }

/-- A record in progress. -/
def processing (id : String) (p : ℚ) : JobRecord :=
  { id := id, name := "demo", status := some "processing", progress := some p }

/-- An update of the polling phase of `CreatePanel`. -/
inductive CreateEvent where
  | tick
  | poll (rec : Option JobRecord)

/-- The state after one update. -/
def applyEvent (st : CreateState) : CreateEvent → CreateState
  | CreateEvent.tick => tickerTick st
  | CreateEvent.poll rec => deliverStatus st rec

/-- The displayed progress after each update of a sequence. -/
def displayed (st : CreateState) : List CreateEvent → List ℚ
  | [] => []
  | ev :: evs => progress (applyEvent st ev) :: displayed (applyEvent st ev) evs

/-- The completion side effects performed so far: calls of `onDone`, calls of
`setPhase("done")`, auto-reset timers scheduled. -/
def completionEffects (st : CreateState) : Nat × Nat × Nat :=
  (st.onDoneCalls, st.doneTransitions, st.resetsScheduled)

/-- The poll result satisfies the stop test. -/
def completes (rec : Option JobRecord) : Bool :=
  match rec with
  | some r => isCompleted r
  | none => false

/-- The state after a sequence of poll results. -/
def deliverAll (st : CreateState) (recs : List (Option JobRecord)) : CreateState :=
  recs.foldl deliverStatus st

/-- A completed record. -/
def completedRecord (id : String) (p : Option ℚ) : JobRecord :=
  { id := id, name := "demo", status := some "completed", progress := p }

/-! ## `ImportPanel` -/

/-- The five phases of `ImportPanel`. -/
inductive ImportPhase where
  | idle
  | importing
  | polling
  | done
  | error
deriving DecidableEq, Repr

/-- The state cells and refs of `ImportPanel` that its progress and completion
code reads or writes, with the `data` of its `usePoll` (`status`), the pending
auto-reset timer of the completion effect and counters of its side effects. -/
structure ImportState where
  jobId : Option String
  phase : ImportPhase
  err : String
  optimistic : ℚ
  ticker : Bool
  status : Option JobRecord
  resetTimer : Bool
  onDoneCalls : Nat
  toasts : Nat

/-- The updater of line 93: `p >= 95 ? 95 : p + 3`. -/
def importTickerStep (p : ℚ) : ℚ :=
  if 95 ≤ p then 95 else p + 3

/-- One firing of the interval of lines 92-94. -/
def importTick (st : ImportState) : ImportState :=
  if st.ticker then { st with optimistic := importTickerStep st.optimistic } else st

/-- Lines 116-120: the `progress` memo of `ImportPanel`. -/
def importProgress (st : ImportState) : ℚ :=
  let server : ℚ := (serverProgress st.status).getD 0
  let best : ℚ := max server st.optimistic
  min 100 (max 0 best)

/-- Lines 133-151: the completion effect of `ImportPanel`, preceded by the
cleanup its previous run may have left (`clearTimeout(t)`). -/
def importFinishEffect (st : ImportState) : ImportState :=
  let st1 : ImportState := { st with resetTimer := false }
  match st1.status with
  | none => st1
  | some r =>
    if isCompleted r then
      { st1 with
        ticker := false
        optimistic := 100
        phase := ImportPhase.done
        toasts := st1.toasts + 1
        onDoneCalls := st1.onDoneCalls + 1
        resetTimer := true }
    else st1

/-- The hook publishes `rec` as `data` in `ImportPanel`: the only effect that
depends on `status` is the completion effect. -/
def importDeliver (st : ImportState) (rec : Option JobRecord) : ImportState :=
  if rec = none ∧ st.status = none then st
  else importFinishEffect { st with status := rec }

/-- The state in which `handleImport` leaves the panel after `createGame`
returned the id `id` (lines 66-73), once the ticker effect has run. -/
def importPollingStart (id : String) : ImportState :=
  { jobId := some id, phase := ImportPhase.polling, err := "", optimistic := 0,
    ticker := true, status := none, resetTimer := false, onDoneCalls := 0, toasts := 0 }

end GameWizard

namespace GameWizard

/-! ## The effect body of `usePoll` -/

/-- Lines 92-104 of `usePoll`: the body of the effect, run on mount and on
every change of a dependency.  `fnPresent` is the truthiness of `fn`, `now`
the value of `Date.now()`, `prior` the state cells and refs left by whatever
ran before.  The second component tells whether `tick()` was called, that is
whether a first call was issued. -/
def runEffect {α : Type} (cfg : PollConfig α) (fnPresent : Bool) (now : Int)
    (prior : PollState α) : PollState α × Bool :=
  if !cfg.enabled || !fnPresent then ({ prior with running := false }, false)
  else
    ({ prior with
        data := none
        error := none
        running := true
        started := now
        curInterval := (cfg.interval : Int) }, true)

/-- A prior state with every cell set: data, a published error, not running,
an old start time and a grown interval. -/
def staleState : PollState Bool :=
  { data := some true, error := some (httpError 500 none), running := false,
    started := 17, curInterval := 9720 }

/-! ## The handlers of `CreatePanel` -/

/-- A call to the job store made through `apiService`; `updateGame` stands
for the first call made by `simulateServerWork`. -/
inductive StoreCall where
  | createGame (name : String)
  | getGame (id : String)
  | updateGame (id : String)
deriving DecidableEq, Repr

/-- JavaScript `String.prototype.trim`. -/
def jsTrim (s : String) : String :=
  String.mk (((s.toList.dropWhile isJsWhitespace).reverse.dropWhile isJsWhitespace).reverse)

/-- Line 29: `disabled`, computed from the phase of a render. -/
def isDisabled (p : Phase) : Bool :=
  decide (p = Phase.creating ∨ p = Phase.polling)

/-- Lines 45-66: `handleCreate` up to its `await`.  `disabled` is the value
the closure captured at its render; the refs and the queued state updates are
those of `st`.  The second component lists the calls to the job store. -/
def handleCreate (disabled : Bool) (st : CreateState) : CreateState × List StoreCall :=
  if st.inFlight || disabled then (st, [])
  else
    let st1 : CreateState := { st with err := "", resetTimer := false }
    if jsTrim st.name = "" then ({ st1 with err := "Please enter a game name." }, [])
    else
      ({ st1 with inFlight := true, phase := Phase.creating },
        [StoreCall.createGame (jsTrim st.name)])

/-- How the awaited `createGame` ended: the string form of `created.id`
(`none` when `created?.id` is null or undefined), or the two messages the
`catch` block reads from a rejection (empty when missing). -/
inductive CreateOutcome where
  | resolved (id : Option String)
  | rejected (responseMessage message : String)

/-- Line 84: `e?.response?.data?.message || e?.message || "Create failed."`. -/
def createErrorMessage (responseMessage message : String) : String :=
  if responseMessage ≠ "" then responseMessage
  else if message ≠ "" then message
  else "Create failed."

/-- Lines 82-88: the `catch` block of `handleCreate` followed by `finally`. -/
def createFailed (st : CreateState) (responseMessage message : String) : CreateState :=
  { st with err := createErrorMessage responseMessage message, phase := Phase.error,
            inFlight := false }

/-- Lines 66-88: `handleCreate` after its `await`. -/
def handleCreateSettle (st : CreateState) : CreateOutcome → CreateState × List StoreCall
  | CreateOutcome.resolved (some id) =>
    if id = "" then (createFailed st "" "Create succeeded but no id returned.", [])
    else
      ({ startTicker { st with jobId := some id, notifiedForId := none } with
          phase := Phase.polling, inFlight := false },
        [StoreCall.updateGame id])
  | CreateOutcome.resolved none =>
    (createFailed st "" "Create succeeded but no id returned.", [])
  | CreateOutcome.rejected responseMessage message =>
    (createFailed st responseMessage message, [])

/-- Lines 175-181: `cancel`. -/
def cancel (st : CreateState) : CreateState × List StoreCall :=
  (stopTicker { st with phase := Phase.idle, jobId := none, err := "", optProgress := 0 }, [])

/-- Lines 183-189: `retry`.  The call of `handleCreate` uses the closure of
the render in which the button was shown, hence `disabled` of `st.phase`. -/
def retry (st : CreateState) : CreateState × List StoreCall :=
  handleCreate (isDisabled st.phase)
    { stopTicker { st with phase := Phase.idle, err := "" } with optProgress := 0 }

/-- The calls the effect of `usePoll` issues in the commit of a render:
enabled is `phase === "polling" && !!jobId`, and a (re)start calls
`fetchStatus`, which calls `getGame(jobId)`. -/
def pollEffectCalls (st : CreateState) : List StoreCall :=
  match st.jobId with
  | some id => if st.phase = Phase.polling ∧ id ≠ "" then [StoreCall.getGame id] else []
  | none => []

/-- The effects of `CreatePanel` in the commit of a render whose `phase`
differs from the previous one, in source order: the finish-flow effect
preceded by its cleanup, then the safety effect, which reads the phase of
that render. -/
def commitEffects (st : CreateState) : CreateState :=
  let st1 : CreateState := finishEffect (finishEffectCleanup st)
  if st.phase = Phase.idle ∨ st.phase = Phase.done ∨ st.phase = Phase.error then
    safetyEffect st1
  else st1

/-- The commit that follows a handler, with the commit of the phase change
the finish-flow effect may make in it; the second component lists the calls
the hook issues in the first commit. -/
def handlerCommit (st : CreateState) : CreateState × List StoreCall :=
  let st1 : CreateState := commitEffects st
  (if st1.phase = st.phase then st1 else phaseCommit st1, pollEffectCalls st)

/-- The state after a sequence of updates of `CreatePanel`. -/
def runEvents (st : CreateState) (evs : List CreateEvent) : CreateState :=
  evs.foldl applyEvent st

/-- Some poll result of the sequence reported a progress of at least 100. -/
def reportedFull (evs : List CreateEvent) : Prop :=
  ∃ (r : JobRecord) (p : ℚ), CreateEvent.poll (some r) ∈ evs ∧ r.progress = some p ∧ 100 ≤ p

/-- An update of the polling phase of `ImportPanel`. -/
inductive ImportEvent where
  | tick
  | poll (rec : Option JobRecord)

/-- The state of `ImportPanel` after one update. -/
def importApply (st : ImportState) : ImportEvent → ImportState
  | ImportEvent.tick => importTick st
  | ImportEvent.poll rec => importDeliver st rec

/-- The state of `ImportPanel` after a sequence of updates. -/
def importRun (st : ImportState) (evs : List ImportEvent) : ImportState :=
  evs.foldl importApply st

/-- Some poll result of the sequence reported a progress of at least 100. -/
def importReportedFull (evs : List ImportEvent) : Prop :=
  ∃ (r : JobRecord) (p : ℚ), ImportEvent.poll (some r) ∈ evs ∧ r.progress = some p ∧ 100 ≤ p

/-- A panel in phase error after a failed poll of job `id`. -/
def errorState (name id : String) : CreateState :=
  { name := name, jobId := some id, phase := Phase.error, err := "Request failed",
    inFlight := false, resetTimer := false, notifiedForId := none, optProgress := 0,
    ticker := false, status := none, finishCleanup := false, onDoneCalls := 0,
    doneTransitions := 0, resetsScheduled := 0 }

/-- Line 98 of `CreatePanel`: the option `enabled` passed to the hook,
`phase === "polling" && !!jobId`. -/
def pollEnabled (st : CreateState) : Bool :=
  decide (st.phase = Phase.polling) && idTruthy st.jobId

/-- The effect of `usePoll` in the commit of the render `shown`, applied to
the state `st` which the effects of the panel leave in that commit.  The
dependency list of the effect (lines 111-121 of `usePoll`) holds `stopWhen`,
for which `CreatePanel` passes an arrow function written inline (line 101),
and `backoffStatuses`, an array literal defaulted in the parameter list (line
19): both are new objects in every render, so the effect runs in every commit.
Enabled, it restarts the session and line 99 (`setData(null)`) makes `status`
null from the next render on; disabled, it returns at lines 93-96 and `data`
is kept. -/
def afterHook (shown st : CreateState) : CreateState :=
  if pollEnabled shown then { st with status := none } else st

/-- The hook publishes `rec` as `data`: the state from the render that
follows the commits of `deliverStatus`. -/
def receiveResult (st : CreateState) (rec : Option JobRecord) : CreateState :=
  afterHook st (deliverStatus st rec)

/-- The commit that follows a handler, with the effect of the hook. -/
def commitRender (st : CreateState) : CreateState × List StoreCall :=
  (afterHook st (handlerCommit st).1, (handlerCommit st).2)

/-- A poll result and a click on Cancel shown by one render: `tick` has called
`setData(rec)` (line 44 of `usePoll`) for the running session, and before the
render of that update the user clicks Cancel.  The render shows `rec` with
the state updates of `cancel`; its commit runs the snap-forward effect, the
finish-flow effect and the safety effect, and the hook, disabled in that
render, keeps `rec`. -/
def cancelWithResult (st : CreateState) (rec : Option JobRecord) : CreateState :=
  afterHook (statusRender (cancel st).1 rec) (commitEffects (statusRender (cancel st).1 rec))

/-- The panel after job `id` completed with the record `r`. -/
def doneState (name id : String) (r : JobRecord) : CreateState :=
  receiveResult (pollingStart name id) (some r)

/-- Job "41" has completed with progress 100; the user presses Create again:
`handleCreate` up to its `await`. -/
def secondCreate : CreateState × List StoreCall :=
  handleCreate (isDisabled (doneState "first" "41" (completedRecord "41" (some 100))).phase)
    (doneState "first" "41" (completedRecord "41" (some 100)))

/-- The second creation: the panel once `createGame` has returned the id "42",
before the commit of that render. -/
def secondPolling : CreateState × List StoreCall :=
  handleCreateSettle (commitRender secondCreate.1).1 (CreateOutcome.resolved (some "42"))

/-- The second creation: the commit of the render in which job "42" enters
polling. -/
def secondCommitted : CreateState × List StoreCall :=
  commitRender secondPolling.1

/-- Job "41" is polling; its last call resolves with completed / 100 and the
user clicks Cancel before that result is rendered. -/
def staleIdle : CreateState :=
  cancelWithResult (pollingStart "first" "41") (some (completedRecord "41" (some 100)))

/-- After `staleIdle` the user presses Create: `handleCreate` up to its
`await`. -/
def staleCreate : CreateState × List StoreCall :=
  handleCreate (isDisabled staleIdle.phase) staleIdle

/-- After `staleIdle`: the panel once `createGame` has returned the id "42",
before the commit of that render. -/
def stalePolling : CreateState × List StoreCall :=
  handleCreateSettle (commitRender staleCreate.1).1 (CreateOutcome.resolved (some "42"))

/-- After `staleIdle`: the commit of the render in which job "42" enters
polling. -/
def staleCommitted : CreateState × List StoreCall :=
  commitRender stalePolling.1

end GameWizard

namespace GameWizard

/-! ## Lemmas on `usePoll` -/

section PollLemmas

variable {α : Type}

theorem isRetryableFailure_iff (cfg : PollConfig α) (o : Outcome α) :
    isRetryableFailure cfg o = true ↔
      ∃ e, o = Outcome.rejected e ∧ e.name ≠ "AbortError" ∧
        isBackoffStatus cfg e.status = true := by
  cases o with
  | resolved res => simp [isRetryableFailure]
  | rejected e => simp [isRetryableFailure]

theorem catchBlock_retryable (cfg : PollConfig α) (rnd : ℚ) (st : PollState α)
    (e : PollError) (hname : e.name ≠ "AbortError")
    (hstatus : isBackoffStatus cfg e.status = true) :
    catchBlock cfg false rnd st e =
      ({ st with curInterval := nextInterval cfg st.curInterval e },
        some (nextDelay cfg rnd (nextInterval cfg st.curInterval e))) := by
  simp [catchBlock, hname, hstatus, schedule]

theorem catchBlock_terminal (cfg : PollConfig α) (rnd : ℚ) (st : PollState α)
    (e : PollError) (hname : e.name ≠ "AbortError")
    (hstatus : isBackoffStatus cfg e.status = false) :
    catchBlock cfg false rnd st e = ({ st with error := some e, running := false }, none) := by
  simp [catchBlock, hname, hstatus]

theorem catchBlock_abort (cfg : PollConfig α) (rnd : ℚ) (st : PollState α)
    (e : PollError) (hname : e.name = "AbortError") :
    catchBlock cfg false rnd st e = (st, none) := by
  simp [catchBlock, hname]

theorem nextInterval_without_header (cfg : PollConfig α) (cur : Int) (e : PollError)
    (h : carriesRetryAfter (Outcome.rejected e : Outcome α) = false) :
    nextInterval cfg cur e = computedBackoff cfg cur := by
  unfold nextInterval
  cases hm : retryAfterMs e with
  | none => rfl
  | some v =>
    have hv : v = 0 := by simpa [carriesRetryAfter, hm] using h
    simp [hv]

theorem nextInterval_with_header (cfg : PollConfig α) (cur : Int) (e : PollError) (v : Int)
    (hm : retryAfterMs e = some v) (hv : v ≠ 0) :
    nextInterval cfg cur e = v := by
  simp [nextInterval, hm, hv]

theorem computedBackoff_le_max (cfg : PollConfig α) (cur : Int) :
    computedBackoff cfg cur ≤ (cfg.maxInterval : Int) :=
  min_le_left _ _

theorem le_computedBackoff (cfg : PollConfig α) (cur : Int) (h0 : 0 ≤ cur)
    (hmax : cur ≤ (cfg.maxInterval : Int)) (hf : 1 < cfg.backoffFactor) :
    cur ≤ computedBackoff cfg cur := by
  refine le_min hmax ?_
  have h0q : (0 : ℚ) ≤ (cur : ℚ) := by exact_mod_cast h0
  have hmul : (cur : ℚ) ≤ (cur : ℚ) * cfg.backoffFactor := by nlinarith
  have hceil : (cur : ℚ) ≤ ((Int.ceil ((cur : ℚ) * cfg.backoffFactor) : Int) : ℚ) :=
    le_trans hmul (Int.le_ceil _)
  exact_mod_cast hceil

theorem retryAfterMs_of_parse (e : PollError) (h : String) (s : Int)
    (hh : retryAfterHeader e = some h) (hp : parseInt10 h = some s) :
    retryAfterMs e = some (s * 1000) := by
  have hne : h ≠ "" := by
    intro hempty
    have hnone : parseInt10 "" = none := by decide
    rw [hempty, hnone] at hp
    cases hp
  simp [retryAfterMs, hh, hne, hp]

theorem floor_random_bounds (rnd : ℚ) (J : Nat) (h0 : 0 ≤ rnd) (h1 : rnd < 1) :
    0 ≤ Int.floor (rnd * (J : ℚ)) ∧
      (Int.floor (rnd * (J : ℚ)) < (J : Int) ∨ (J = 0 ∧ Int.floor (rnd * (J : ℚ)) = 0)) := by
  have hJ : (0 : ℚ) ≤ (J : ℚ) := Nat.cast_nonneg J
  refine ⟨Int.floor_nonneg.mpr (mul_nonneg h0 hJ), ?_⟩
  rcases Nat.eq_zero_or_pos J with hz | hpos
  · right
    refine ⟨hz, ?_⟩
    simp [hz]
  · left
    have hJpos : (0 : ℚ) < (J : ℚ) := by exact_mod_cast hpos
    have hlt : rnd * (J : ℚ) < ((J : Int) : ℚ) := by
      have : rnd * (J : ℚ) < 1 * (J : ℚ) := mul_lt_mul_of_pos_right h1 hJpos
      simpa using this
    exact Int.floor_lt.mpr hlt

theorem nextDelay_nonneg (cfg : PollConfig α) (rnd : ℚ) (cur : Int) :
    0 ≤ nextDelay cfg rnd cur :=
  le_max_left _ _

theorem nextDelay_near (cfg : PollConfig α) (rnd : ℚ) (cur : Int) (h0 : 0 ≤ rnd)
    (h1 : rnd < 1) (hcur : 0 ≤ cur) :
    2 * |nextDelay cfg rnd cur - cur| ≤ (cfg.jitterMs : Int) := by
  obtain ⟨hlo, hhi⟩ := floor_random_bounds rnd cfg.jitterMs h0 h1
  unfold nextDelay jitter
  generalize Int.floor (rnd * (cfg.jitterMs : ℚ)) = f at hlo hhi
  have hdiv : ((cfg.jitterMs / 2 : Nat) : Int) = (cfg.jitterMs : Int) / 2 := by
    push_cast
    rfl
  rw [hdiv]
  have hJ : 0 ≤ (cfg.jitterMs : Int) := Int.ofNat_nonneg _
  have hJ0 : cfg.jitterMs = 0 → (cfg.jitterMs : Int) = 0 := fun h => by simp [h]
  generalize (cfg.jitterMs : Int) = J at hhi hJ hJ0
  rcases le_total 0 (cur + (f - J / 2)) with hpos | hneg
  · rw [max_eq_right hpos]
    rcases abs_cases (cur + (f - J / 2) - cur) with ⟨h, _⟩ | ⟨h, _⟩ <;> rw [h] <;>
      rcases hhi with hhi | ⟨_, hf0⟩ <;> omega
  · rw [max_eq_left hneg]
    rcases abs_cases (0 - cur) with ⟨h, _⟩ | ⟨h, _⟩ <;> rw [h] <;>
      rcases hhi with hhi | ⟨_, hf0⟩ <;> omega

end PollLemmas

end GameWizard

namespace GameWizard

/-! ## Sessions of retryable failures -/

section PollSessions

variable {α : Type}

theorem settle_retryable (cfg : PollConfig α) (now : Int) (rnd : ℚ) (st : PollState α)
    (o : Outcome α) (hr : isRetryableFailure cfg o = true)
    (hh : carriesRetryAfter o = false) :
    settle cfg false now rnd st o =
      ({ st with curInterval := computedBackoff cfg st.curInterval },
        some (nextDelay cfg rnd (computedBackoff cfg st.curInterval))) := by
  obtain ⟨e, rfl, hname, hstatus⟩ := (isRetryableFailure_iff cfg o).mp hr
  simp only [settle]
  rw [catchBlock_retryable cfg rnd st e hname hstatus,
    nextInterval_without_header cfg st.curInterval e hh]

theorem intervals_cons_retryable (cfg : PollConfig α) (st : PollState α) (c : Cycle α)
    (cs : List (Cycle α)) (hr : isRetryableFailure cfg c.outcome = true)
    (hh : carriesRetryAfter c.outcome = false) :
    intervals cfg st (c :: cs) =
      computedBackoff cfg st.curInterval ::
        intervals cfg { st with curInterval := computedBackoff cfg st.curInterval } cs := by
  simp [intervals, runCycles, settle_retryable cfg c.now c.rnd st c.outcome hr hh]

theorem intervals_chain (cfg : PollConfig α) (hf : 1 < cfg.backoffFactor)
    (cs : List (Cycle α)) :
    ∀ st : PollState α, 0 ≤ st.curInterval → st.curInterval ≤ (cfg.maxInterval : Int) →
      (∀ c ∈ cs, isRetryableFailure cfg c.outcome = true ∧
        carriesRetryAfter c.outcome = false) →
      List.Chain (fun a b => a ≤ b) st.curInterval (intervals cfg st cs) ∧
        (∀ x ∈ intervals cfg st cs, x ≤ (cfg.maxInterval : Int)) ∧
        (intervals cfg st cs).length = cs.length := by
  induction cs with
  | nil =>
    intro st _ _ _
    simp [intervals, runCycles]
  | cons c cs ih =>
    intro st h0 hmax hall
    have hc := hall c (List.mem_cons_self c cs)
    have hrest : ∀ d ∈ cs, isRetryableFailure cfg d.outcome = true ∧
        carriesRetryAfter d.outcome = false :=
      fun d hd => hall d (List.mem_cons_of_mem c hd)
    have hstep := le_computedBackoff cfg st.curInterval h0 hmax hf
    have hcap := computedBackoff_le_max cfg st.curInterval
    obtain ⟨ihc, ihb, ihl⟩ :=
      ih { st with curInterval := computedBackoff cfg st.curInterval }
        (le_trans h0 hstep) hcap hrest
    rw [intervals_cons_retryable cfg st c cs hc.1 hc.2]
    refine ⟨List.Chain.cons hstep ihc, ?_, ?_⟩
    · intro x hx
      rcases List.mem_cons.mp hx with hx | hx
      · rw [hx]
        exact hcap
      · exact ihb x hx
    · simp [ihl]

theorem settle_resolved_interval (cfg : PollConfig α) (now : Int) (rnd : ℚ)
    (st : PollState α) (res : α) :
    (settle cfg false now rnd st (Outcome.resolved res)).1.curInterval =
      (cfg.interval : Int) := by
  simp only [settle]
  split
  · simp at *
  · split
    · rfl
    · split
      · simp [catchBlock, isBackoffStatus, timeoutError]
      · rfl

end PollSessions

/-! ## Claims on `usePoll` -/

/-- C1 (as amended): with `interval ≤ maxInterval` and `backoffFactor > 1`, over
every session of retryable failures none of which carries a truthy
`Retry-After` value, the successive effective intervals are non-decreasing,
never exceed `maxInterval`, and every failure is followed by a further cycle;
after any successful call of an active session the effective interval is the
base interval. -/
theorem usePoll_interval_monotone_bounded {α : Type} (cfg : PollConfig α)
    (cs : List (Cycle α)) (now : Int)
    (hle : cfg.interval ≤ cfg.maxInterval) (hf : 1 < cfg.backoffFactor)
    (hcs : ∀ c ∈ cs, isRetryableFailure cfg c.outcome = true ∧
      carriesRetryAfter c.outcome = false) :
    List.Chain (fun a b => a ≤ b) (cfg.interval : Int)
        (intervals cfg (startSession cfg now) cs) ∧
      (∀ x ∈ intervals cfg (startSession cfg now) cs, x ≤ (cfg.maxInterval : Int)) ∧
      (intervals cfg (startSession cfg now) cs).length = cs.length ∧
      (∀ (st : PollState α) (t : Int) (rnd : ℚ) (res : α),
        (settle cfg false t rnd st (Outcome.resolved res)).1.curInterval =
          (cfg.interval : Int)) := by
  have h := intervals_chain cfg hf cs (startSession cfg now)
    (by simp [startSession]) (by simpa [startSession] using hle) hcs
  exact ⟨h.1, h.2.1, h.2.2, fun st t rnd res => settle_resolved_interval cfg t rnd st res⟩

end GameWizard

namespace GameWizard

section PollEvaluation

theorem computedBackoff_default_3000 : computedBackoff (defaultConfig Unit) 3000 = 5400 := by
  norm_num [computedBackoff, defaultConfig, Int.ceil_eq_iff]

theorem computedBackoff_default_5400 : computedBackoff (defaultConfig Unit) 5400 = 9720 := by
  norm_num [computedBackoff, defaultConfig, Int.ceil_eq_iff]

theorem computedBackoff_default_1000 : computedBackoff (defaultConfig Unit) 1000 = 1800 := by
  norm_num [computedBackoff, defaultConfig, Int.ceil_eq_iff]

theorem rateLimited_retryable (now : Int) (rnd : ℚ) :
    isRetryableFailure (defaultConfig Unit) (rateLimited now rnd).outcome = true ∧
      carriesRetryAfter (rateLimited now rnd).outcome = false := by
  have h1 : isRetryableFailure (defaultConfig Unit)
      (Outcome.rejected (httpError 429 none)) = true := by decide
  have h2 : carriesRetryAfter (Outcome.rejected (httpError 429 none) : Outcome Unit) =
      false := by decide
  exact ⟨h1, h2⟩

theorem runCycles_cons_scheduled {α : Type} (cfg : PollConfig α) (st s : PollState α)
    (c : Cycle α) (cs : List (Cycle α)) (d : Int)
    (h : settle cfg false c.now c.rnd st c.outcome = (s, some d)) :
    runCycles cfg st (c :: cs) = (s, some d) :: runCycles cfg s cs := by
  simp [runCycles, h]

theorem runCycles_three_scheduled {α : Type} (cfg : PollConfig α) (st s1 s2 s3 : PollState α)
    (c1 c2 c3 : Cycle α) (d1 d2 d3 : Int)
    (h1 : settle cfg false c1.now c1.rnd st c1.outcome = (s1, some d1))
    (h2 : settle cfg false c2.now c2.rnd s1 c2.outcome = (s2, some d2))
    (h3 : settle cfg false c3.now c3.rnd s2 c3.outcome = (s3, some d3)) :
    runCycles cfg st [c1, c2, c3] = [(s1, some d1), (s2, some d2), (s3, some d3)] := by
  rw [runCycles_cons_scheduled _ _ _ _ _ _ h1, runCycles_cons_scheduled _ _ _ _ _ _ h2,
    runCycles_cons_scheduled _ _ _ _ _ _ h3]
  rfl

end PollEvaluation

/-- C1 witness: two rate-limited failures under the default options. -/
theorem usePoll_interval_monotone_bounded_witness :
    (defaultConfig Unit).interval ≤ (defaultConfig Unit).maxInterval ∧
      1 < (defaultConfig Unit).backoffFactor ∧
      List.Chain (fun a b => a ≤ b) ((defaultConfig Unit).interval : Int)
        (intervals (defaultConfig Unit) (startSession (defaultConfig Unit) 0)
          [rateLimited 10 0, rateLimited 5000 (1 / 2)]) ∧
      (intervals (defaultConfig Unit) (startSession (defaultConfig Unit) 0)
          [rateLimited 10 0, rateLimited 5000 (1 / 2)]).length = 2 :=
  have hle : (defaultConfig Unit).interval ≤ (defaultConfig Unit).maxInterval := by decide
  have hf : 1 < (defaultConfig Unit).backoffFactor := by norm_num [defaultConfig]
  have h := usePoll_interval_monotone_bounded (defaultConfig Unit)
    [rateLimited 10 0, rateLimited 5000 (1 / 2)] 0 hle hf
    (by
      intro c hc
      simp only [List.mem_cons, List.mem_singleton, List.not_mem_nil, or_false] at hc
      rcases hc with rfl | rfl <;> exact rateLimited_retryable _ _)
  ⟨hle, hf, h.1, h.2.2.1⟩

/-- C1 counterexample: under the default options (base 3000, maximum 15000,
factor 1.8) a rate-limited failure with `Retry-After: 60` is retryable and
sets the effective interval to 60000, above the maximum; one with
`Retry-After: 1` sets it to 1000, below the base interval it follows. -/
theorem usePoll_interval_retryAfter_counterexample :
    (defaultConfig Unit).interval ≤ (defaultConfig Unit).maxInterval ∧
      1 < (defaultConfig Unit).backoffFactor ∧
      isRetryableFailure (defaultConfig Unit) (rateLimitedAfter "60" 10 0).outcome = true ∧
      intervals (defaultConfig Unit) (startSession (defaultConfig Unit) 0)
        [rateLimitedAfter "60" 10 0] = [60000] ∧
      ¬ ((60000 : Int) ≤ ((defaultConfig Unit).maxInterval : Int)) ∧
      isRetryableFailure (defaultConfig Unit) (rateLimitedAfter "1" 10 0).outcome = true ∧
      intervals (defaultConfig Unit) (startSession (defaultConfig Unit) 0)
        [rateLimitedAfter "1" 10 0] = [1000] ∧
      ¬ (((defaultConfig Unit).interval : Int) ≤ 1000) := by
  refine ⟨by decide, by norm_num [defaultConfig], by decide, ?_, by decide, by decide, ?_,
    by decide⟩
  · have hm : retryAfterMs (httpError 429 (some "60")) = some 60000 := by decide
    have h := catchBlock_retryable (defaultConfig Unit) 0 (startSession (defaultConfig Unit) 0)
      (httpError 429 (some "60")) (by decide) (by decide)
    rw [nextInterval_with_header _ _ _ 60000 hm (by decide)] at h
    simp [intervals, runCycles, settle, rateLimitedAfter, h]
  · have hm : retryAfterMs (httpError 429 (some "1")) = some 1000 := by decide
    have h := catchBlock_retryable (defaultConfig Unit) 0 (startSession (defaultConfig Unit) 0)
      (httpError 429 (some "1")) (by decide) (by decide)
    rw [nextInterval_with_header _ _ _ 1000 hm (by decide)] at h
    simp [intervals, runCycles, settle, rateLimitedAfter, h]

end GameWizard

namespace GameWizard

/-- C5 counterexample: under the default options a rate-limited failure with
`Retry-After: 1` followed by one without header leaves the intervals 1000 and
then 1800, which is `min(15000, ceil(1000 * 1.8))`; the value computed from
the interval in force before the header, `min(15000, ceil(3000 * 1.8))`, is
5400. -/
theorem usePoll_retryAfter_base_counterexample :
    isRetryableFailure (defaultConfig Unit) (rateLimitedAfter "1" 10 0).outcome = true ∧
      carriesRetryAfter (rateLimitedAfter "1" 10 0).outcome = true ∧
      isRetryableFailure (defaultConfig Unit) (rateLimited 2000 0).outcome = true ∧
      carriesRetryAfter (rateLimited 2000 0).outcome = false ∧
      (startSession (defaultConfig Unit) 0).curInterval = 3000 ∧
      intervals (defaultConfig Unit) (startSession (defaultConfig Unit) 0)
        [rateLimitedAfter "1" 10 0, rateLimited 2000 0] = [1000, 1800] ∧
      min (((defaultConfig Unit).maxInterval : Nat) : Int)
        (Int.ceil ((3000 : ℚ) * (defaultConfig Unit).backoffFactor)) = 5400 ∧
      (1800 : Int) ≠ 5400 := by
  refine ⟨by decide, by decide, by decide, by decide, rfl, ?_, ?_, by decide⟩
  · have hm : retryAfterMs (httpError 429 (some "1")) = some 1000 := by decide
    have h1 := catchBlock_retryable (defaultConfig Unit) 0
      (startSession (defaultConfig Unit) 0) (httpError 429 (some "1")) (by decide) (by decide)
    rw [nextInterval_with_header _ _ _ 1000 hm (by decide)] at h1
    have h2 := settle_retryable (defaultConfig Unit) 2000 0
      { startSession (defaultConfig Unit) 0 with curInterval := 1000 }
      (rateLimited 2000 0).outcome (rateLimited_retryable 2000 0).1
      (rateLimited_retryable 2000 0).2
    have h2a : settle (defaultConfig Unit) false (rateLimited 2000 0).now
        (rateLimited 2000 0).rnd { startSession (defaultConfig Unit) 0 with curInterval := 1000 }
        (rateLimited 2000 0).outcome = _ := h2
    have h1a : settle (defaultConfig Unit) false (rateLimitedAfter "1" 10 0).now
        (rateLimitedAfter "1" 10 0).rnd (startSession (defaultConfig Unit) 0)
        (rateLimitedAfter "1" 10 0).outcome = _ := h1
    simp only [intervals]
    rw [runCycles_cons_scheduled _ _ _ _ _ _ h1a, runCycles_cons_scheduled _ _ _ _ _ _ h2a]
    simp [runCycles, computedBackoff_default_1000]
  · have h := computedBackoff_default_3000
    simpa [computedBackoff] using h

/-- C5 (as amended): when a retryable failure whose `Retry-After` value is
truthy (`v` milliseconds) is followed by a retryable failure without such a
value, the interval computed for the second failure is
`min(maxInterval, ceil(v * backoffFactor))`: the suggested delay is stored as
the effective interval and is the base of the next backoff step. -/
theorem usePoll_retryAfter_is_next_base {α : Type} (cfg : PollConfig α) (st : PollState α)
    (c1 c2 : Cycle α) (e1 : PollError) (v : Int)
    (h1 : c1.outcome = Outcome.rejected e1)
    (hr1 : isRetryableFailure cfg c1.outcome = true)
    (hv : retryAfterMs e1 = some v) (hv0 : v ≠ 0)
    (hr2 : isRetryableFailure cfg c2.outcome = true)
    (hh2 : carriesRetryAfter c2.outcome = false) :
    intervals cfg st [c1, c2] =
      [v, min (cfg.maxInterval : Int) (Int.ceil ((v : ℚ) * cfg.backoffFactor))] := by
  obtain ⟨e, he, hname, hstatus⟩ := (isRetryableFailure_iff cfg c1.outcome).mp hr1
  have hee : e = e1 := by
    rw [h1] at he
    cases he
    rfl
  subst hee
  have hs1 : settle cfg false c1.now c1.rnd st c1.outcome =
      ({ st with curInterval := v }, some (nextDelay cfg c1.rnd v)) := by
    rw [h1]
    simp only [settle]
    rw [catchBlock_retryable cfg c1.rnd st e hname hstatus,
      nextInterval_with_header cfg st.curInterval e v hv hv0]
  have hs2 := settle_retryable cfg c2.now c2.rnd { st with curInterval := v } c2.outcome hr2 hh2
  simp only [intervals]
  rw [runCycles_cons_scheduled _ _ _ _ _ _ hs1, runCycles_cons_scheduled _ _ _ _ _ _ hs2]
  simp [runCycles, computedBackoff]

/-- C5 witness: `Retry-After: 1` then a plain rate-limited failure, default
options. -/
theorem usePoll_retryAfter_is_next_base_witness :
    (rateLimitedAfter "1" 10 0).outcome = Outcome.rejected (httpError 429 (some "1")) ∧
      retryAfterMs (httpError 429 (some "1")) = some 1000 ∧
      intervals (defaultConfig Unit) (startSession (defaultConfig Unit) 0)
        [rateLimitedAfter "1" 10 0, rateLimited 2000 0] =
        [1000, min (((defaultConfig Unit).maxInterval : Nat) : Int)
          (Int.ceil (((1000 : Int) : ℚ) * (defaultConfig Unit).backoffFactor))] :=
  ⟨rfl, by decide,
    usePoll_retryAfter_is_next_base (defaultConfig Unit) (startSession (defaultConfig Unit) 0)
      (rateLimitedAfter "1" 10 0) (rateLimited 2000 0) (httpError 429 (some "1")) 1000 rfl
      (by decide) (by decide) (by decide) (rateLimited_retryable 2000 0).1
      (rateLimited_retryable 2000 0).2⟩

end GameWizard

namespace GameWizard

section RetryAfterDelay

variable {α : Type}

theorem settle_retryAfter (cfg : PollConfig α) (now : Int) (rnd : ℚ) (st : PollState α)
    (e : PollError) (h : String) (s : Int) (hname : e.name ≠ "AbortError")
    (hstatus : isBackoffStatus cfg e.status = true)
    (hh : retryAfterHeader e = some h) (hp : parseInt10 h = some s) (hs : 1 ≤ s) :
    settle cfg false now rnd st (Outcome.rejected e) =
      ({ st with curInterval := s * 1000 }, some (nextDelay cfg rnd (s * 1000))) := by
  simp only [settle]
  rw [catchBlock_retryable cfg rnd st e hname hstatus,
    nextInterval_with_header cfg st.curInterval e (s * 1000)
      (retryAfterMs_of_parse e h s hh hp) (by omega)]

theorem nextDelay_near_rat (cfg : PollConfig α) (rnd : ℚ) (cur : Int) (h0 : 0 ≤ rnd)
    (h1 : rnd < 1) (hcur : 0 ≤ cur) :
    |((nextDelay cfg rnd cur : Int) : ℚ) - (cur : ℚ)| ≤ (cfg.jitterMs : ℚ) / 2 := by
  have h := nextDelay_near cfg rnd cur h0 h1 hcur
  have hq : (2 : ℚ) * |((nextDelay cfg rnd cur : Int) : ℚ) - (cur : ℚ)| ≤
      (cfg.jitterMs : ℚ) := by
    exact_mod_cast h
  linarith

end RetryAfterDelay

/-- C6: for a retryable failure whose retry header parses to `s ≥ 1` seconds,
settled in an active session with `Math.random()` in `[0, 1)`, a next cycle is
scheduled with a delay `d ≥ 0` such that `|d - 1000 * s| ≤ jitterMs / 2`,
whatever the current interval, the factor and the maximum are, and the
published error and the running flag are left as they were.  In the scenario
of three 429 failures with `Retry-After: 5` on the third, under the default
options (`jitterMs` 250), the third delay lies in `[4875, 5125]`, the error is
still null and the session still running. -/
theorem usePoll_retryAfter_delay {α : Type} (cfg : PollConfig α) (st : PollState α)
    (now : Int) (rnd : ℚ) (e : PollError) (h : String) (s : Int)
    (hr0 : 0 ≤ rnd) (hr1 : rnd < 1) (hname : e.name ≠ "AbortError")
    (hstatus : isBackoffStatus cfg e.status = true)
    (hh : retryAfterHeader e = some h) (hp : parseInt10 h = some s) (hs : 1 ≤ s) :
    ((settle cfg false now rnd st (Outcome.rejected e)).1.error = st.error ∧
      (settle cfg false now rnd st (Outcome.rejected e)).1.running = st.running ∧
      ∃ d : Int, (settle cfg false now rnd st (Outcome.rejected e)).2 = some d ∧ 0 ≤ d ∧
        |(d : ℚ) - 1000 * (s : ℚ)| ≤ (cfg.jitterMs : ℚ) / 2) ∧
    (∀ (t0 t1 t2 t3 : Int) (r1 r2 r3 : ℚ), 0 ≤ r3 → r3 < 1 →
      ∃ (s1 s2 s3 : PollState Unit) (d1 d2 d3 : Int),
        runCycles (defaultConfig Unit) (startSession (defaultConfig Unit) t0)
            [rateLimited t1 r1, rateLimited t2 r2, rateLimitedAfter "5" t3 r3] =
          [(s1, some d1), (s2, some d2), (s3, some d3)] ∧
        4875 ≤ d3 ∧ d3 ≤ 5125 ∧ s3.error = none ∧ s3.running = true) := by
  constructor
  · rw [settle_retryAfter cfg now rnd st e h s hname hstatus hh hp hs]
    refine ⟨rfl, rfl, nextDelay cfg rnd (s * 1000), rfl, nextDelay_nonneg _ _ _, ?_⟩
    have hn := nextDelay_near_rat cfg rnd (s * 1000) hr0 hr1 (by omega)
    have hc : (((s * 1000 : Int)) : ℚ) = 1000 * (s : ℚ) := by
      push_cast
      ring
    rw [hc] at hn
    exact hn
  · intro t0 t1 t2 t3 r1 r2 r3 h0 h1
    have e1 := settle_retryable (defaultConfig Unit) t1 r1
      (startSession (defaultConfig Unit) t0) (rateLimited t1 r1).outcome
      (rateLimited_retryable t1 r1).1 (rateLimited_retryable t1 r1).2
    have e2 := settle_retryable (defaultConfig Unit) t2 r2
      { startSession (defaultConfig Unit) t0 with
        curInterval := computedBackoff (defaultConfig Unit)
          (startSession (defaultConfig Unit) t0).curInterval }
      (rateLimited t2 r2).outcome
      (rateLimited_retryable t2 r2).1 (rateLimited_retryable t2 r2).2
    have e3 := settle_retryAfter (defaultConfig Unit) t3 r3
      { startSession (defaultConfig Unit) t0 with
        curInterval := computedBackoff (defaultConfig Unit)
          (computedBackoff (defaultConfig Unit)
            (startSession (defaultConfig Unit) t0).curInterval) }
      (httpError 429 (some "5")) "5" 5 (by decide) (by decide) (by decide) (by decide)
      (by decide)
    have hn := nextDelay_near (defaultConfig Unit) r3 (5 * 1000) h0 h1 (by decide)
    have hj : (((defaultConfig Unit).jitterMs : Nat) : Int) = 250 := rfl
    rw [hj] at hn
    refine ⟨_, _, _, _, _, _, runCycles_three_scheduled _ _ _ _ _ _ _ _ _ _ _ e1 e2 e3,
      ?_, ?_, rfl, rfl⟩
    · rcases abs_cases (nextDelay (defaultConfig Unit) r3 (5 * 1000) - 5 * 1000) with
        ⟨ha, _⟩ | ⟨ha, _⟩ <;> rw [ha] at hn <;> omega
    · rcases abs_cases (nextDelay (defaultConfig Unit) r3 (5 * 1000) - 5 * 1000) with
        ⟨ha, _⟩ | ⟨ha, _⟩ <;> rw [ha] at hn <;> omega

/-- C6 witness: a 429 failure with `Retry-After: 5`, `Math.random()` = 1/2,
default options. -/
theorem usePoll_retryAfter_delay_witness :
    (0 : ℚ) ≤ 1 / 2 ∧ (1 / 2 : ℚ) < 1 ∧ parseInt10 "5" = some 5 ∧
      ∃ d : Int,
        (settle (defaultConfig Unit) false 9000 (1 / 2) (startSession (defaultConfig Unit) 0)
          (Outcome.rejected (httpError 429 (some "5")))).2 = some d ∧ 0 ≤ d ∧
        |(d : ℚ) - 1000 * ((5 : Int) : ℚ)| ≤ (((defaultConfig Unit).jitterMs : Nat) : ℚ) / 2 :=
  ⟨by norm_num, by norm_num, by decide,
    (usePoll_retryAfter_delay (defaultConfig Unit) (startSession (defaultConfig Unit) 0) 9000
      (1 / 2) (httpError 429 (some "5")) "5" 5 (by norm_num) (by norm_num) (by decide)
      (by decide) (by decide) (by decide) (by decide)).1.2.2⟩

end GameWizard

namespace GameWizard

/-- C7: for a failed call settled in an active, running session, the error is
published with `running` false and nothing scheduled exactly when the failure
is not an abort and its status is not in `backoffStatuses`; when the status is
in `backoffStatuses` the published error and the running flag are unchanged
and, the failure not being an abort, a next cycle is scheduled; the error
synthesized on timeout ("Polling timed out") is of the terminal kind. -/
theorem usePoll_failure_classification {α : Type} (cfg : PollConfig α) (st : PollState α)
    (now : Int) (rnd : ℚ) (e : PollError) (hrun : st.running = true) :
    (((settle cfg false now rnd st (Outcome.rejected e)).1.error = some e ∧
        (settle cfg false now rnd st (Outcome.rejected e)).1.running = false ∧
        (settle cfg false now rnd st (Outcome.rejected e)).2 = none) ↔
      (e.name ≠ "AbortError" ∧ isBackoffStatus cfg e.status = false)) ∧
    (isBackoffStatus cfg e.status = true →
      (settle cfg false now rnd st (Outcome.rejected e)).1.error = st.error ∧
        (settle cfg false now rnd st (Outcome.rejected e)).1.running = st.running ∧
        (e.name ≠ "AbortError" →
          (settle cfg false now rnd st (Outcome.rejected e)).2 =
            some (nextDelay cfg rnd (nextInterval cfg st.curInterval e)))) ∧
    (timeoutError.message = "Polling timed out" ∧
      settle cfg false now rnd st (Outcome.rejected timeoutError) =
        ({ st with error := some timeoutError, running := false }, none)) := by
  refine ⟨?_, ?_, rfl, ?_⟩
  · by_cases hname : e.name = "AbortError"
    · simp [settle, catchBlock_abort cfg rnd st e hname, hname, hrun]
    · cases hstatus : isBackoffStatus cfg e.status with
      | true =>
        simp [settle, catchBlock_retryable cfg rnd st e hname hstatus, hrun]
      | false =>
        simp [settle, catchBlock_terminal cfg rnd st e hname hstatus, hname]
  · intro hstatus
    by_cases hname : e.name = "AbortError"
    · simp [settle, catchBlock_abort cfg rnd st e hname, hname]
    · simp [settle, catchBlock_retryable cfg rnd st e hname hstatus, hname]
  · simp only [settle]
    exact catchBlock_terminal cfg rnd st timeoutError (by decide) rfl

/-- C7 witness: a 500 response in a freshly started session, default options. -/
theorem usePoll_failure_classification_witness :
    (startSession (defaultConfig Unit) 0).running = true ∧
      isBackoffStatus (defaultConfig Unit) (httpError 500 none).status = false ∧
      (settle (defaultConfig Unit) false 100 0 (startSession (defaultConfig Unit) 0)
        (Outcome.rejected (httpError 500 none))).1.error = some (httpError 500 none) ∧
      (settle (defaultConfig Unit) false 100 0 (startSession (defaultConfig Unit) 0)
        (Outcome.rejected (httpError 500 none))).1.running = false ∧
      (settle (defaultConfig Unit) false 100 0 (startSession (defaultConfig Unit) 0)
        (Outcome.rejected (httpError 500 none))).2 = none :=
  ⟨rfl, by decide,
    (usePoll_failure_classification (defaultConfig Unit) (startSession (defaultConfig Unit) 0)
      100 0 (httpError 500 none) rfl).1.mpr ⟨by decide, by decide⟩⟩

/-- C8 (the code at the failing input): default options (timeout 120000), a
session started at time 0, a 429 failure settled at time 200000.  The elapsed
time exceeds the timeout, yet no error is published, `running` stays true and
the next cycle is scheduled (after 5400 ms for `Math.random()` = 1/2); a
successful call without stop predicate settled at the same time does publish
the timeout error and schedules nothing. -/
theorem usePoll_retryable_failure_past_timeout :
    (200000 : Int) - (startSession (defaultConfig Unit) 0).started >
        (((defaultConfig Unit).timeout : Nat) : Int) ∧
      isRetryableFailure (defaultConfig Unit) (rateLimited 200000 (1 / 2)).outcome = true ∧
      (settle (defaultConfig Unit) false 200000 (1 / 2) (startSession (defaultConfig Unit) 0)
        (rateLimited 200000 (1 / 2)).outcome).1.error = none ∧
      (settle (defaultConfig Unit) false 200000 (1 / 2) (startSession (defaultConfig Unit) 0)
        (rateLimited 200000 (1 / 2)).outcome).1.running = true ∧
      (settle (defaultConfig Unit) false 200000 (1 / 2) (startSession (defaultConfig Unit) 0)
        (rateLimited 200000 (1 / 2)).outcome).2 = some 5400 ∧
      (settle (defaultConfig Unit) false 200000 (1 / 2) (startSession (defaultConfig Unit) 0)
        (Outcome.resolved ())).1.error = some timeoutError ∧
      (settle (defaultConfig Unit) false 200000 (1 / 2) (startSession (defaultConfig Unit) 0)
        (Outcome.resolved ())).1.running = false ∧
      (settle (defaultConfig Unit) false 200000 (1 / 2) (startSession (defaultConfig Unit) 0)
        (Outcome.resolved ())).2 = none := by
  have hs := settle_retryable (defaultConfig Unit) 200000 (1 / 2)
    (startSession (defaultConfig Unit) 0) (rateLimited 200000 (1 / 2)).outcome
    (rateLimited_retryable _ _).1 (rateLimited_retryable _ _).2
  have hc : computedBackoff (defaultConfig Unit) (startSession (defaultConfig Unit) 0).curInterval
      = 5400 := computedBackoff_default_3000
  have hd : nextDelay (defaultConfig Unit) (1 / 2) 5400 = 5400 := by
    have hfloor : Int.floor ((1 / 2 : ℚ) * ((250 : Nat) : ℚ)) = 125 := by
      norm_num [Int.floor_eq_iff]
    have hj : jitter (defaultConfig Unit) (1 / 2) = 0 := by
      unfold jitter
      show Int.floor ((1 / 2 : ℚ) * ((250 : Nat) : ℚ)) - ((250 / 2 : Nat) : Int) = 0
      rw [hfloor]
      decide
    unfold nextDelay
    rw [hj]
    decide
  rw [hc, hd] at hs
  refine ⟨by decide, (rateLimited_retryable _ _).1, ?_, ?_, ?_, ?_, ?_, ?_⟩
  · rw [hs]
    rfl
  · rw [hs]
    rfl
  · rw [hs]
  · simp [settle, stopHolds, defaultConfig, startSession, catchBlock, isBackoffStatus,
      timeoutError]
  · simp [settle, stopHolds, defaultConfig, startSession, catchBlock, isBackoffStatus,
      timeoutError]
  · simp [settle, stopHolds, defaultConfig, startSession, catchBlock, isBackoffStatus,
      timeoutError]

/-- C9: a successful call settled in an active session publishes its result
as data and resets the effective interval to the base; if the stop predicate
holds, `running` becomes false, the error is untouched and nothing is
scheduled, whatever the elapsed time; if it does not hold and the timeout has
not elapsed, one next cycle is scheduled (with the jittered base interval) and
error and running flag are untouched. -/
theorem usePoll_success {α : Type} (cfg : PollConfig α) (st : PollState α) (now : Int)
    (rnd : ℚ) (res : α) :
    (settle cfg false now rnd st (Outcome.resolved res)).1.data = some res ∧
    (settle cfg false now rnd st (Outcome.resolved res)).1.curInterval = (cfg.interval : Int) ∧
    (stopHolds cfg res = true →
      (settle cfg false now rnd st (Outcome.resolved res)).1.running = false ∧
        (settle cfg false now rnd st (Outcome.resolved res)).1.error = st.error ∧
        (settle cfg false now rnd st (Outcome.resolved res)).2 = none) ∧
    (stopHolds cfg res = false → ¬ (now - st.started > (cfg.timeout : Int)) →
      (settle cfg false now rnd st (Outcome.resolved res)).2 =
          some (nextDelay cfg rnd (cfg.interval : Int)) ∧
        (settle cfg false now rnd st (Outcome.resolved res)).1.running = st.running ∧
        (settle cfg false now rnd st (Outcome.resolved res)).1.error = st.error) := by
  refine ⟨?_, settle_resolved_interval cfg now rnd st res, ?_, ?_⟩
  · simp only [settle]
    split
    · simp at *
    · split
      · rfl
      · split
        · simp [catchBlock, isBackoffStatus, timeoutError]
        · rfl
  · intro hstop
    simp [settle, hstop]
  · intro hstop htime
    simp [settle, hstop, htime, schedule]

/-- C9 witness: a completed record under a stop predicate, settled after the
timeout has elapsed. -/
theorem usePoll_success_witness :
    stopHolds stopOnTrue true = true ∧
      (200000 : Int) - 0 > 120000 ∧
      (settle stopOnTrue false 200000 0
        (startSession stopOnTrue 0) (Outcome.resolved true)).1.running = false ∧
      (settle stopOnTrue false 200000 0
        (startSession stopOnTrue 0) (Outcome.resolved true)).1.error = none ∧
      (settle stopOnTrue false 200000 0
        (startSession stopOnTrue 0) (Outcome.resolved true)).2 = none :=
  ⟨rfl, by decide,
    (usePoll_success stopOnTrue
      (startSession stopOnTrue 0) 200000 0 true).2.2.1 rfl⟩

/-- C10: once the effect cleanup has run (`cancelled` is true), the outcome of
a call issued by that session, whatever value it resolves with or error it
rejects with, leaves data, error, running flag, start time and effective
interval as they were and schedules no further cycle. -/
theorem usePoll_torn_down_is_inert {α : Type} (cfg : PollConfig α) (st : PollState α)
    (now : Int) (rnd : ℚ) (o : Outcome α) :
    settle cfg true now rnd st o = (st, none) := by
  cases o with
  | resolved res => simp [settle]
  | rejected e => simp [settle, catchBlock]

end GameWizard

namespace GameWizard

/-! ## Lemmas on the finish-flow effect of `CreatePanel` -/

section FinishFlow

theorem idTruthy_some (id : String) (h : id ≠ "") : idTruthy (some id) = true := by
  simp [idTruthy, h]

theorem statusRender_fields (st : CreateState) (rec : Option JobRecord) :
    (statusRender st rec).status = rec ∧ (statusRender st rec).phase = st.phase ∧
      (statusRender st rec).jobId = st.jobId ∧
      (statusRender st rec).notifiedForId = st.notifiedForId ∧
      completionEffects (statusRender st rec) = completionEffects st := by
  unfold statusRender snapForwardEffect
  split
  · exact ⟨rfl, rfl, rfl, rfl, rfl⟩
  · split <;> exact ⟨rfl, rfl, rfl, rfl, rfl⟩

theorem finishEffectCleanup_fields (st : CreateState) :
    (finishEffectCleanup st).status = st.status ∧ (finishEffectCleanup st).phase = st.phase ∧
      (finishEffectCleanup st).jobId = st.jobId ∧
      (finishEffectCleanup st).notifiedForId = st.notifiedForId ∧
      (finishEffectCleanup st).optProgress = st.optProgress ∧
      completionEffects (finishEffectCleanup st) = completionEffects st := by
  unfold finishEffectCleanup
  split <;> exact ⟨rfl, rfl, rfl, rfl, rfl, rfl⟩

theorem finishEffect_skip (st : CreateState)
    (h : st.phase ≠ Phase.polling ∨ completes st.status = false ∨
      idTruthy st.jobId = false ∨ st.notifiedForId = st.jobId) :
    finishEffect st = { st with finishCleanup := false } := by
  unfold finishEffect
  cases hs : st.status with
  | none => rfl
  | some r =>
    simp only
    rw [hs] at h
    rcases h with h | h | h | h
    · simp [h]
    · have hr : isCompleted r = false := h
      simp [hr]
    · simp [h]
    · simp [h]

theorem finishEffect_fire (st : CreateState) (r : JobRecord) (hs : st.status = some r)
    (hphase : st.phase = Phase.polling) (hr : isCompleted r = true)
    (hid : idTruthy st.jobId = true) (hnot : st.notifiedForId ≠ st.jobId) :
    (finishEffect st).phase = Phase.done ∧ (finishEffect st).jobId = st.jobId ∧
      (finishEffect st).notifiedForId = st.jobId ∧
      (finishEffect st).status = st.status ∧
      (finishEffect st).optProgress = 100 ∧
      (finishEffect st).resetTimer = true ∧
      (finishEffect st).finishCleanup = true ∧
      completionEffects (finishEffect st) =
        (st.onDoneCalls + 1, st.doneTransitions + 1, st.resetsScheduled + 1) := by
  unfold finishEffect
  rw [hs]
  simp [hphase, hr, hid, hnot, completionEffects]

theorem safetyEffect_fields (st : CreateState) :
    (safetyEffect st).status = st.status ∧ (safetyEffect st).phase = st.phase ∧
      (safetyEffect st).jobId = st.jobId ∧
      (safetyEffect st).notifiedForId = st.notifiedForId ∧
      (safetyEffect st).resetTimer = st.resetTimer ∧
      completionEffects (safetyEffect st) = completionEffects st := by
  unfold safetyEffect
  split <;> exact ⟨rfl, rfl, rfl, rfl, rfl, rfl⟩

theorem phaseCommit_of_not_polling (st : CreateState) (h : st.phase ≠ Phase.polling) :
    (phaseCommit st).phase = st.phase ∧ (phaseCommit st).jobId = st.jobId ∧
      (phaseCommit st).notifiedForId = st.notifiedForId ∧
      (phaseCommit st).status = st.status ∧
      completionEffects (phaseCommit st) = completionEffects st := by
  unfold phaseCommit
  obtain ⟨c1, c2, c3, c4, _, c6⟩ := finishEffectCleanup_fields st
  have hskip := finishEffect_skip (finishEffectCleanup st) (Or.inl (by rw [c2]; exact h))
  obtain ⟨s1, s2, s3, s4, _, s6⟩ := safetyEffect_fields (finishEffect (finishEffectCleanup st))
  rw [s1, s2, s3, s4, s6, hskip]
  exact ⟨c2, c3, c4, c1, c6⟩

theorem deliverStatus_skip (st : CreateState) (rec : Option JobRecord)
    (h : st.phase ≠ Phase.polling ∨ completes rec = false ∨
      idTruthy st.jobId = false ∨ st.notifiedForId = st.jobId) :
    (deliverStatus st rec).phase = st.phase ∧ (deliverStatus st rec).jobId = st.jobId ∧
      (deliverStatus st rec).notifiedForId = st.notifiedForId ∧
      completionEffects (deliverStatus st rec) = completionEffects st := by
  unfold deliverStatus
  split
  · exact ⟨rfl, rfl, rfl, rfl⟩
  · obtain ⟨r1, r2, r3, r4, r5⟩ := statusRender_fields st rec
    obtain ⟨c1, c2, c3, c4, _, c6⟩ := finishEffectCleanup_fields (statusRender st rec)
    have hskip := finishEffect_skip (finishEffectCleanup (statusRender st rec))
      (by rw [c1, c2, c3, c4, r1, r2, r3, r4]; exact h)
    have hph : (finishEffect (finishEffectCleanup (statusRender st rec))).phase = st.phase := by
      rw [hskip]
      exact c2.trans r2
    simp only [if_pos hph]
    rw [hskip]
    exact ⟨c2.trans r2, c3.trans r3, c4.trans r4, c6.trans r5⟩

theorem deliverStatus_fire (st : CreateState) (r : JobRecord)
    (hphase : st.phase = Phase.polling) (hr : isCompleted r = true)
    (hid : idTruthy st.jobId = true) (hnot : st.notifiedForId ≠ st.jobId) :
    (deliverStatus st (some r)).phase = Phase.done ∧
      (deliverStatus st (some r)).jobId = st.jobId ∧
      (deliverStatus st (some r)).notifiedForId = st.jobId ∧
      (deliverStatus st (some r)).status = some r ∧
      completionEffects (deliverStatus st (some r)) =
        (st.onDoneCalls + 1, st.doneTransitions + 1, st.resetsScheduled + 1) := by
  unfold deliverStatus
  rw [if_neg (by simp)]
  obtain ⟨r1, r2, r3, r4, r5⟩ := statusRender_fields st (some r)
  obtain ⟨c1, c2, c3, c4, _, c6⟩ := finishEffectCleanup_fields (statusRender st (some r))
  obtain ⟨f1, f2, f3, f4, _, _, _, f8⟩ :=
    finishEffect_fire (finishEffectCleanup (statusRender st (some r))) r (c1.trans r1)
      (by rw [c2, r2]; exact hphase) hr (by rw [c3, r3]; exact hid)
      (by rw [c3, c4, r3, r4]; exact hnot)
  have hne : ¬ (finishEffect (finishEffectCleanup (statusRender st (some r)))).phase =
      st.phase := by
    rw [f1, hphase]
    decide
  simp only [if_neg hne]
  obtain ⟨p1, p2, p3, p4, p5⟩ :=
    phaseCommit_of_not_polling (finishEffect (finishEffectCleanup (statusRender st (some r))))
      (by rw [f1]; decide)
  have hc : completionEffects (statusRender st (some r)) = completionEffects st := r5
  have hcounters : (finishEffectCleanup (statusRender st (some r))).onDoneCalls =
        st.onDoneCalls ∧
      (finishEffectCleanup (statusRender st (some r))).doneTransitions = st.doneTransitions ∧
      (finishEffectCleanup (statusRender st (some r))).resetsScheduled =
        st.resetsScheduled := by
    have h := c6.trans r5
    simp only [completionEffects, Prod.mk.injEq] at h
    exact h
  refine ⟨p1.trans f1, p2.trans (f2.trans (c3.trans r3)), p3.trans (f3.trans (c3.trans r3)),
    p4.trans (f4.trans (c1.trans r1)), ?_⟩
  rw [p5, f8, hcounters.1, hcounters.2.1, hcounters.2.2]

end FinishFlow

end GameWizard

namespace GameWizard

section CompletionOnce

theorem deliverAll_after_done (recs : List (Option JobRecord)) :
    ∀ st : CreateState, st.phase = Phase.done →
      (deliverAll st recs).phase = Phase.done ∧
        completionEffects (deliverAll st recs) = completionEffects st := by
  induction recs with
  | nil =>
    intro st h
    exact ⟨h, rfl⟩
  | cons rec recs ih =>
    intro st h
    obtain ⟨d1, _, _, d4⟩ := deliverStatus_skip st rec (Or.inl (by rw [h]; decide))
    obtain ⟨i1, i2⟩ := ih (deliverStatus st rec) (d1.trans h)
    exact ⟨i1, i2.trans d4⟩

theorem deliverAll_polling (id : String) (hne : id ≠ "") (recs : List (Option JobRecord)) :
    ∀ st : CreateState, st.phase = Phase.polling → st.jobId = some id →
      st.notifiedForId ≠ some id →
      (recs.any completes = false →
        (deliverAll st recs).phase = Phase.polling ∧
          completionEffects (deliverAll st recs) = completionEffects st) ∧
      (recs.any completes = true →
        (deliverAll st recs).phase = Phase.done ∧
          completionEffects (deliverAll st recs) =
            (st.onDoneCalls + 1, st.doneTransitions + 1, st.resetsScheduled + 1)) := by
  induction recs with
  | nil =>
    intro st hphase _ _
    exact ⟨fun _ => ⟨hphase, rfl⟩, fun h => by simp at h⟩
  | cons rec recs ih =>
    intro st hphase hid hnot
    cases hc : completes rec with
    | false =>
      obtain ⟨d1, d2, d3, d4⟩ := deliverStatus_skip st rec (Or.inr (Or.inl hc))
      obtain ⟨i1, i2⟩ := ih (deliverStatus st rec) (d1.trans hphase) (d2.trans hid)
        (by rw [d3]; exact hnot)
      have hcounters : (deliverStatus st rec).onDoneCalls = st.onDoneCalls ∧
          (deliverStatus st rec).doneTransitions = st.doneTransitions ∧
          (deliverStatus st rec).resetsScheduled = st.resetsScheduled := by
        have h := d4
        simp only [completionEffects, Prod.mk.injEq] at h
        exact h
      constructor
      · intro hany
        have hrest : recs.any completes = false := by
          simpa [List.any_cons, hc] using hany
        obtain ⟨j1, j2⟩ := i1 hrest
        exact ⟨j1, j2.trans d4⟩
      · intro hany
        have hrest : recs.any completes = true := by
          simpa [List.any_cons, hc] using hany
        obtain ⟨j1, j2⟩ := i2 hrest
        refine ⟨j1, ?_⟩
        show completionEffects (deliverAll (deliverStatus st rec) recs) = _
        rw [j2, hcounters.1, hcounters.2.1, hcounters.2.2]
    | true =>
      cases rec with
      | none => simp [completes] at hc
      | some r =>
        have hr : isCompleted r = true := hc
        obtain ⟨f1, _, _, _, f5⟩ := deliverStatus_fire st r hphase hr
          (by rw [hid]; exact idTruthy_some id hne) (by rw [hid]; exact hnot)
        obtain ⟨a1, a2⟩ := deliverAll_after_done recs (deliverStatus st (some r)) f1
        constructor
        · intro hany
          simp [List.any_cons, hc] at hany
        · intro _
          exact ⟨a1, a2.trans f5⟩

end CompletionOnce

/-- C4: in `CreatePanel`, from a polling state with a non-empty job id that
has not been notified yet, over every sequence of poll results (null results
included) delivered to the finish-flow effect: `onDone`, `setPhase("done")`
and the scheduling of the auto-reset are each performed at most once; they
are each performed exactly once, and the phase ends as done, if some result
of the sequence satisfies `status === "completed" || progress >= 100`, and not
at all otherwise; and in any state whose notified-id guard already holds the
job id, a further result triggers none of them. -/
theorem createPanel_completion_once (st : CreateState) (id : String)
    (recs : List (Option JobRecord)) (hphase : st.phase = Phase.polling)
    (hid : st.jobId = some id) (hne : id ≠ "") (hnot : st.notifiedForId ≠ some id) :
    ((deliverAll st recs).onDoneCalls ≤ st.onDoneCalls + 1 ∧
      (deliverAll st recs).doneTransitions ≤ st.doneTransitions + 1 ∧
      (deliverAll st recs).resetsScheduled ≤ st.resetsScheduled + 1) ∧
    ((∃ rec ∈ recs, completes rec = true) →
      (deliverAll st recs).phase = Phase.done ∧
        completionEffects (deliverAll st recs) =
          (st.onDoneCalls + 1, st.doneTransitions + 1, st.resetsScheduled + 1)) ∧
    ((∀ rec ∈ recs, completes rec = false) →
      (deliverAll st recs).phase = Phase.polling ∧
        completionEffects (deliverAll st recs) = completionEffects st) ∧
    (∀ (s : CreateState) (rec : Option JobRecord), s.notifiedForId = s.jobId →
      completionEffects (deliverStatus s rec) = completionEffects s) := by
  obtain ⟨hnone, hsome⟩ := deliverAll_polling id hne recs st hphase hid hnot
  refine ⟨?_, ?_, ?_, ?_⟩
  · cases hany : recs.any completes with
    | false =>
      have h := (hnone hany).2
      simp only [completionEffects, Prod.mk.injEq] at h
      omega
    | true =>
      have h := (hsome hany).2
      simp only [completionEffects, Prod.mk.injEq] at h
      omega
  · intro hex
    exact hsome (List.any_eq_true.mpr hex)
  · intro hall
    apply hnone
    cases hany : recs.any completes with
    | false => rfl
    | true =>
      obtain ⟨rec, hmem, hrec⟩ := List.any_eq_true.mp hany
      rw [hall rec hmem] at hrec
      cases hrec
  · intro s rec hguard
    exact (deliverStatus_skip s rec (Or.inr (Or.inr (Or.inr hguard)))).2.2.2

/-- C4 witness: job "42", results processing 30, completed, completed. -/
theorem createPanel_completion_once_witness :
    (pollingStart "demo" "42").phase = Phase.polling ∧
      (pollingStart "demo" "42").jobId = some "42" ∧
      (∃ rec ∈ [some (processing "42" 30), some (completedRecord "42" none),
          some (completedRecord "42" (some 100))], completes rec = true) ∧
      (deliverAll (pollingStart "demo" "42")
        [some (processing "42" 30), some (completedRecord "42" none),
          some (completedRecord "42" (some 100))]).phase = Phase.done ∧
      completionEffects (deliverAll (pollingStart "demo" "42")
        [some (processing "42" 30), some (completedRecord "42" none),
          some (completedRecord "42" (some 100))]) = (1, 1, 1) :=
  have hex : ∃ rec ∈ [some (processing "42" 30), some (completedRecord "42" none),
      some (completedRecord "42" (some 100))], completes rec = true :=
    ⟨some (completedRecord "42" none), by simp, by decide⟩
  ⟨rfl, rfl, hex,
    (createPanel_completion_once (pollingStart "demo" "42") "42"
      [some (processing "42" 30), some (completedRecord "42" none),
        some (completedRecord "42" (some 100))] rfl rfl (by decide) (by decide)).2.1 hex⟩

end GameWizard

namespace GameWizard

section Evaluation

theorem deliverStatus_eq_of_skip (st : CreateState) (rec : Option JobRecord)
    (hchange : ¬ (rec = none ∧ st.status = none))
    (h : st.phase ≠ Phase.polling ∨ completes rec = false ∨
      idTruthy st.jobId = false ∨ st.notifiedForId = st.jobId) :
    deliverStatus st rec =
      { finishEffectCleanup (statusRender st rec) with finishCleanup := false } := by
  unfold deliverStatus
  rw [if_neg hchange]
  obtain ⟨r1, r2, r3, r4, _⟩ := statusRender_fields st rec
  obtain ⟨c1, c2, c3, c4, _, _⟩ := finishEffectCleanup_fields (statusRender st rec)
  have hskip := finishEffect_skip (finishEffectCleanup (statusRender st rec))
    (by rw [c1, c2, c3, c4, r1, r2, r3, r4]; exact h)
  have hph : (finishEffect (finishEffectCleanup (statusRender st rec))).phase = st.phase := by
    rw [hskip]
    exact c2.trans r2
  simp only [if_pos hph]
  exact hskip

theorem processing_not_completed (id : String) (p : ℚ) (hp : p < 100) :
    completes (some (processing id p)) = false := by
  simp [completes, isCompleted, processing, hp]

end Evaluation

/-- C2 (the code at the failing input): job "42" enters polling (optimistic
progress 1, ticker running); the hook publishes status processing with
progress 92, then the ticker fires three times.  The displayed progress reads
92, 94, 96 and then 95. -/
theorem createPanel_progress_regresses :
    displayed (pollingStart "demo" "42")
        [CreateEvent.poll (some (processing "42" 92)), CreateEvent.tick, CreateEvent.tick,
          CreateEvent.tick] = [92, 94, 96, 95] ∧
      (applyEvent (pollingStart "demo" "42")
        (CreateEvent.poll (some (processing "42" 92)))).phase = Phase.polling := by
  have h1 : deliverStatus (pollingStart "demo" "42") (some (processing "42" 92)) =
      { pollingStart "demo" "42" with
        status := some (processing "42" 92), optProgress := 92 } := by
    rw [deliverStatus_eq_of_skip _ _ (by simp)
      (Or.inr (Or.inl (processing_not_completed "42" 92 (by norm_num))))]
    simp [statusRender, snapForwardEffect, serverProgress, finishEffectCleanup, pollingStart,
      processing]
  constructor
  · simp only [displayed, applyEvent, h1]
    norm_num [tickerTick, tickerStep, progress, serverProgress, pollingStart, processing]
  · simp only [applyEvent, h1]
    rfl

end GameWizard

namespace GameWizard

section ImportEvaluation

theorem importDeliver_processing (st : ImportState) (id : String) (p : ℚ) (hp : p < 100) :
    importDeliver st (some (processing id p)) =
      { st with status := some (processing id p), resetTimer := false } := by
  have hc : isCompleted (processing id p) = false := by
    simp [isCompleted, processing, hp]
  simp [importDeliver, importFinishEffect, hc]

end ImportEvaluation

/-- C3 (the code at the failing input): job "42" enters polling in
`ImportPanel` (optimistic value 0); the first two poll results are processing
30 and processing 20.  With no ticker tick in between the displayed progress
reads 30 and then 20; with four ticks in between (optimistic value 12) it
reads 30 and then 20 as well; the phase is polling throughout. -/
theorem importPanel_progress_drops :
    importProgress (importDeliver (importPollingStart "42") (some (processing "42" 30))) = 30 ∧
      importProgress
        (importDeliver (importDeliver (importPollingStart "42") (some (processing "42" 30)))
          (some (processing "42" 20))) = 20 ∧
      importProgress
        (importDeliver
          (Nat.iterate importTick 4
            (importDeliver (importPollingStart "42") (some (processing "42" 30))))
          (some (processing "42" 20))) = 20 ∧
      (importDeliver
          (Nat.iterate importTick 4
            (importDeliver (importPollingStart "42") (some (processing "42" 30))))
          (some (processing "42" 20))).phase = ImportPhase.polling := by
  simp only [importDeliver_processing _ "42" 30 (by norm_num),
    importDeliver_processing _ "42" 20 (by norm_num), Nat.iterate]
  refine ⟨?_, ?_, ?_, ?_⟩
  · norm_num [importProgress, serverProgress, importPollingStart, processing]
  · norm_num [importProgress, serverProgress, importPollingStart, processing]
  · norm_num [importProgress, serverProgress, importPollingStart, processing, importTick,
      importTickerStep]
  · simp [importPollingStart, importTick]

end GameWizard

namespace GameWizard

/-- C11: every run of the effect of `usePoll` with `enabled` true and a
function `fn`, from any prior state, leaves data null, error null, running
true, the start time at the current time and the effective interval at the
configured base interval, and then issues the first call. -/
theorem usePoll_restart_clears_state {α : Type} (cfg : PollConfig α) (fnPresent : Bool)
    (now : Int) (prior : PollState α) (hen : cfg.enabled = true) (hfn : fnPresent = true) :
    (runEffect cfg fnPresent now prior).1.data = none ∧
      (runEffect cfg fnPresent now prior).1.error = none ∧
      (runEffect cfg fnPresent now prior).1.running = true ∧
      (runEffect cfg fnPresent now prior).1.curInterval = (cfg.interval : Int) ∧
      (runEffect cfg fnPresent now prior).1.started = now ∧
      (runEffect cfg fnPresent now prior).2 = true := by
  simp [runEffect, hen, hfn]

/-- C11 witness: a restart at time 5000 over a state with data, a published
error, a grown interval and an old start time. -/
theorem usePoll_restart_clears_state_witness :
    stopOnTrue.enabled = true ∧
      (runEffect stopOnTrue true 5000 staleState).1.data = none ∧
      (runEffect stopOnTrue true 5000 staleState).1.error = none ∧
      (runEffect stopOnTrue true 5000 staleState).1.running = true ∧
      (runEffect stopOnTrue true 5000 staleState).1.curInterval = 3000 ∧
      (runEffect stopOnTrue true 5000 staleState).1.started = 5000 ∧
      (runEffect stopOnTrue true 5000 staleState).2 = true :=
  ⟨rfl, usePoll_restart_clears_state stopOnTrue true 5000 staleState rfl rfl⟩

section Handlers

theorem phaseCommit_eq_of_not_polling (st : CreateState) (h : st.phase ≠ Phase.polling) :
    phaseCommit st =
      safetyEffect { finishEffectCleanup st with finishCleanup := false } := by
  unfold phaseCommit
  rw [finishEffect_skip (finishEffectCleanup st)
    (Or.inl (by rw [(finishEffectCleanup_fields st).2.1]; exact h))]

theorem commitEffects_resting (st : CreateState)
    (h : st.phase = Phase.idle ∨ st.phase = Phase.done ∨ st.phase = Phase.error) :
    commitEffects st =
      { st with inFlight := false, ticker := false, optProgress := 0,
                finishCleanup := false,
                resetTimer := if st.finishCleanup then false else st.resetTimer } := by
  have hne : st.phase ≠ Phase.polling := by
    rcases h with h | h | h <;> rw [h] <;> decide
  have hp := phaseCommit_eq_of_not_polling st hne
  unfold phaseCommit at hp
  unfold commitEffects
  simp only [if_pos h]
  rw [hp]
  unfold safetyEffect finishEffectCleanup
  cases hc : st.finishCleanup <;> simp [h]

theorem handlerCommit_resting (st : CreateState)
    (h : st.phase = Phase.idle ∨ st.phase = Phase.done ∨ st.phase = Phase.error) :
    handlerCommit st = (commitEffects st, pollEffectCalls st) := by
  have hsame : (commitEffects st).phase = st.phase := by
    rw [commitEffects_resting st h]
  unfold handlerCommit
  exact Prod.ext (if_pos hsame) rfl

theorem handleCreate_disabled (st : CreateState) : handleCreate true st = (st, []) := by
  simp [handleCreate]

theorem handleCreate_proceeds (st : CreateState) (hfl : st.inFlight = false)
    (hname : jsTrim st.name ≠ "") :
    handleCreate false st =
      ({ st with err := "", resetTimer := false, inFlight := true, phase := Phase.creating },
        [StoreCall.createGame (jsTrim st.name)]) := by
  simp [handleCreate, hfl, hname]

end Handlers

/-- C14: in `CreatePanel`, for every state in phase error, `cancel()` yields
phase idle with job id null, error message empty and optimistic progress 0,
stops the ticker and makes no call to the job store; the phase has changed,
and the commit that follows keeps these values and the hook, now disabled,
issues no call either. -/
theorem createPanel_cancel_from_error (st : CreateState) (h : st.phase = Phase.error) :
    ((cancel st).1.phase = Phase.idle ∧ (cancel st).1.jobId = none ∧
      (cancel st).1.err = "" ∧ (cancel st).1.optProgress = 0 ∧
      (cancel st).1.ticker = false ∧ (cancel st).2 = []) ∧
    (cancel st).1.phase ≠ st.phase ∧
    ((handlerCommit (cancel st).1).1.phase = Phase.idle ∧
      (handlerCommit (cancel st).1).1.jobId = none ∧
      (handlerCommit (cancel st).1).1.err = "" ∧
      (handlerCommit (cancel st).1).1.optProgress = 0 ∧
      (handlerCommit (cancel st).1).1.ticker = false ∧
      (handlerCommit (cancel st).1).2 = []) := by
  refine ⟨⟨rfl, rfl, rfl, rfl, rfl, rfl⟩, ?_, ?_⟩
  · rw [h]
    exact fun hc => Phase.noConfusion hc
  have hidle : (cancel st).1.phase = Phase.idle := rfl
  have hc := commitEffects_resting (cancel st).1 (Or.inl hidle)
  rw [handlerCommit_resting (cancel st).1 (Or.inl hidle), hc]
  exact ⟨rfl, rfl, rfl, rfl, rfl, rfl⟩

/-- C14 witness: cancel in the error state of job "41". -/
theorem createPanel_cancel_from_error_witness :
    (errorState "demo" "41").phase = Phase.error ∧
      (cancel (errorState "demo" "41")).1.phase = Phase.idle ∧
      (cancel (errorState "demo" "41")).1.jobId = none ∧
      (cancel (errorState "demo" "41")).1.err = "" ∧
      (cancel (errorState "demo" "41")).1.optProgress = 0 ∧
      (cancel (errorState "demo" "41")).1.ticker = false ∧
      (cancel (errorState "demo" "41")).2 = [] :=
  ⟨rfl, (createPanel_cancel_from_error (errorState "demo" "41") rfl).1⟩

/-- C15: in `CreatePanel`, for every state in phase error with a non-blank name
(and the in-flight guard released, as every entry into phase error leaves it),
`retry()` clears the error and the optimistic progress, issues exactly one
`createGame` call, with the trimmed name, and sets phase creating; when that
call returns a non-empty id, the panel enters polling with that id as job id
and makes no further `createGame` call. -/
theorem createPanel_retry_from_error (st : CreateState) (created : String)
    (hphase : st.phase = Phase.error) (hfl : st.inFlight = false)
    (hname : jsTrim st.name ≠ "") (hid : created ≠ "") :
    (retry st).2 = [StoreCall.createGame (jsTrim st.name)] ∧
      (retry st).1.phase = Phase.creating ∧ (retry st).1.err = "" ∧
      (retry st).1.optProgress = 0 ∧ (retry st).1.ticker = false ∧
      (handleCreateSettle (retry st).1 (CreateOutcome.resolved (some created))).1.phase =
        Phase.polling ∧
      (handleCreateSettle (retry st).1 (CreateOutcome.resolved (some created))).1.jobId =
        some created ∧
      (handleCreateSettle (retry st).1 (CreateOutcome.resolved (some created))).1.err = "" ∧
      (handleCreateSettle (retry st).1 (CreateOutcome.resolved (some created))).2 =
        [StoreCall.updateGame created] := by
  have hd : isDisabled st.phase = false := by
    rw [hphase]
    decide
  have hr : retry st =
      ({ st with phase := Phase.creating, err := "", ticker := false, optProgress := 0,
                 resetTimer := false, inFlight := true },
        [StoreCall.createGame (jsTrim st.name)]) := by
    unfold retry
    rw [hd, handleCreate_proceeds _ (by exact hfl) (by exact hname)]
    rfl
  rw [hr]
  simp [handleCreateSettle, hid, startTicker]

/-- C15 witness: retry in the error state of job "41" with name "demo"; the
new call returns id "42". -/
theorem createPanel_retry_from_error_witness :
    (errorState "demo" "41").phase = Phase.error ∧
      jsTrim (errorState "demo" "41").name ≠ "" ∧
      (retry (errorState "demo" "41")).2 = [StoreCall.createGame "demo"] ∧
      (handleCreateSettle (retry (errorState "demo" "41")).1
        (CreateOutcome.resolved (some "42"))).1.jobId = some "42" :=
  have h := createPanel_retry_from_error (errorState "demo" "41") "42" rfl rfl (by decide)
    (by decide)
  ⟨rfl, by decide, h.1, h.2.2.2.2.2.2.1⟩

/-- C18: in `CreatePanel`, `retry()` invoked in a render whose phase is
creating or polling makes no `createGame` call (no call to the job store at
all): `handleCreate` returns at its guard, and the state is left with phase
idle, the error cleared, optimistic progress 0, the ticker stopped and the
job id as it was. -/
theorem createPanel_retry_while_busy (st : CreateState)
    (h : st.phase = Phase.creating ∨ st.phase = Phase.polling) :
    (retry st).2 = [] ∧ (retry st).1.phase = Phase.idle ∧ (retry st).1.err = "" ∧
      (retry st).1.optProgress = 0 ∧ (retry st).1.ticker = false ∧
      (retry st).1.jobId = st.jobId ∧ (retry st).1.inFlight = st.inFlight := by
  have hd : isDisabled st.phase = true := by
    rcases h with h | h <;> rw [h] <;> decide
  unfold retry
  rw [hd, handleCreate_disabled]
  exact ⟨rfl, rfl, rfl, rfl, rfl, rfl, rfl⟩

/-- C18 witness: retry while job "42" is polling. -/
theorem createPanel_retry_while_busy_witness :
    ((pollingStart "demo" "42").phase = Phase.creating ∨
        (pollingStart "demo" "42").phase = Phase.polling) ∧
      (retry (pollingStart "demo" "42")).2 = [] ∧
      (retry (pollingStart "demo" "42")).1.phase = Phase.idle ∧
      (retry (pollingStart "demo" "42")).1.jobId = some "42" :=
  have h := createPanel_retry_while_busy (pollingStart "demo" "42") (Or.inr rfl)
  ⟨Or.inr rfl, h.1, h.2.1, h.2.2.2.2.2.1⟩

end GameWizard

namespace GameWizard

section DoneRender

theorem completedRecord_completes (id : String) (p : Option ℚ) :
    isCompleted (completedRecord id p) = true := by
  simp [isCompleted, completedRecord]

theorem deliverStatus_fire_optProgress (st : CreateState) (r : JobRecord)
    (hphase : st.phase = Phase.polling) (hr : isCompleted r = true)
    (hid : idTruthy st.jobId = true) (hnot : st.notifiedForId ≠ st.jobId) :
    (deliverStatus st (some r)).optProgress = 0 ∧
      (finishEffect (finishEffectCleanup (statusRender st (some r)))).optProgress = 100 := by
  obtain ⟨r1, r2, r3, r4, _⟩ := statusRender_fields st (some r)
  obtain ⟨c1, c2, c3, c4, _, _⟩ := finishEffectCleanup_fields (statusRender st (some r))
  obtain ⟨f1, _, _, _, f5, _, _, _⟩ :=
    finishEffect_fire (finishEffectCleanup (statusRender st (some r))) r (c1.trans r1)
      (by rw [c2, r2]; exact hphase) hr (by rw [c3, r3]; exact hid)
      (by rw [c3, c4, r3, r4]; exact hnot)
  refine ⟨?_, f5⟩
  have hne : ¬ (finishEffect (finishEffectCleanup (statusRender st (some r)))).phase =
      st.phase := by
    rw [f1, hphase]
    decide
  have hd : deliverStatus st (some r) =
      phaseCommit (finishEffect (finishEffectCleanup (statusRender st (some r)))) := by
    unfold deliverStatus
    rw [if_neg (by simp)]
    exact if_neg hne
  have hpc := phaseCommit_eq_of_not_polling
    (finishEffect (finishEffectCleanup (statusRender st (some r)))) (by rw [f1]; decide)
  have hph : ({ finishEffectCleanup
      (finishEffect (finishEffectCleanup (statusRender st (some r)))) with
      finishCleanup := false } : CreateState).phase = Phase.done :=
    ((finishEffectCleanup_fields _).2.1).trans f1
  rw [hd, hpc]
  unfold safetyEffect
  rw [if_pos (Or.inr (Or.inl hph))]

theorem afterHook_enabled (shown st : CreateState) (h : pollEnabled shown = true) :
    afterHook shown st = { st with status := none } := by
  simp [afterHook, h]

end DoneRender

/-- C12 (the code at the failing input): job "42" is polling and the hook
publishes a record with status "completed", whatever its progress (missing,
60 or 100).  The finish-flow effect sets the optimistic progress to 100 and
the phase to done.  In the same commit the hook, still enabled, restarts and
clears its data; in the commit of the phase change the safety effect sets the
optimistic progress to 0.  From then on the phase is done, `status` is null,
the optimistic progress is 0 and the displayed progress is 0. -/
theorem createPanel_done_progress_reset :
    (pollingStart "demo" "42").phase = Phase.polling ∧
    pollEnabled (pollingStart "demo" "42") = true ∧
    (∀ p : Option ℚ,
      completes (some (completedRecord "42" p)) = true ∧
        (finishEffect (finishEffectCleanup
          (statusRender (pollingStart "demo" "42")
            (some (completedRecord "42" p))))).optProgress = 100 ∧
        (doneState "demo" "42" (completedRecord "42" p)).phase = Phase.done ∧
        (doneState "demo" "42" (completedRecord "42" p)).status = none ∧
        (doneState "demo" "42" (completedRecord "42" p)).optProgress = 0 ∧
        progress (doneState "demo" "42" (completedRecord "42" p)) = 0) ∧
    progress (doneState "demo" "42" (completedRecord "42" none)) = 0 ∧
    progress (doneState "demo" "42" (completedRecord "42" (some 60))) = 0 ∧
    progress (doneState "demo" "42" (completedRecord "42" (some 100))) = 0 := by
  have hen : pollEnabled (pollingStart "demo" "42") = true := by decide
  have hall : ∀ p : Option ℚ,
      completes (some (completedRecord "42" p)) = true ∧
        (finishEffect (finishEffectCleanup
          (statusRender (pollingStart "demo" "42")
            (some (completedRecord "42" p))))).optProgress = 100 ∧
        (doneState "demo" "42" (completedRecord "42" p)).phase = Phase.done ∧
        (doneState "demo" "42" (completedRecord "42" p)).status = none ∧
        (doneState "demo" "42" (completedRecord "42" p)).optProgress = 0 ∧
        progress (doneState "demo" "42" (completedRecord "42" p)) = 0 := by
    intro p
    have hr := completedRecord_completes "42" p
    obtain ⟨ho, h100⟩ := deliverStatus_fire_optProgress (pollingStart "demo" "42")
      (completedRecord "42" p) rfl hr (by decide) (by decide)
    obtain ⟨f1, _, _, _, _⟩ := deliverStatus_fire (pollingStart "demo" "42")
      (completedRecord "42" p) rfl hr (by decide) (by decide)
    have hd : doneState "demo" "42" (completedRecord "42" p) =
        { deliverStatus (pollingStart "demo" "42") (some (completedRecord "42" p)) with
          status := none } := afterHook_enabled _ _ hen
    refine ⟨hr, h100, ?_, ?_, ?_, ?_⟩
    · rw [hd]
      exact f1
    · rw [hd]
    · rw [hd]
      exact ho
    · rw [hd]
      unfold progress
      show max 0 (min 100 (max ((serverProgress none).getD 0)
        (deliverStatus (pollingStart "demo" "42")
          (some (completedRecord "42" p))).optProgress)) = 0
      rw [ho]
      simp [serverProgress]
  exact ⟨rfl, hen, hall, (hall none).2.2.2.2.2, (hall (some 60)).2.2.2.2.2,
    (hall (some 100)).2.2.2.2.2⟩

/-- C13 (the code at the failing input): job "42" is polling and the hook
publishes the record completed / 100.  The finish-flow effect schedules the
auto-reset timer (one `setTimeout`, `resetTimerRef` set) and sets the phase to
done; `phase` is a dependency of that effect, so the commit of the phase
change runs the cleanup the effect returned, which clears the timer: after
the re-render the phase is done and `resetTimerRef` is null. -/
theorem createPanel_autoReset_cleared :
    (finishEffect (finishEffectCleanup
        (statusRender (pollingStart "demo" "42")
          (some (completedRecord "42" (some 100)))))).resetTimer = true ∧
      (finishEffect (finishEffectCleanup
        (statusRender (pollingStart "demo" "42")
          (some (completedRecord "42" (some 100)))))).finishCleanup = true ∧
      (doneState "demo" "42" (completedRecord "42" (some 100))).phase = Phase.done ∧
      (doneState "demo" "42" (completedRecord "42" (some 100))).resetsScheduled = 1 ∧
      (doneState "demo" "42" (completedRecord "42" (some 100))).resetTimer = false ∧
      (doneState "demo" "42" (completedRecord "42" (some 100))).jobId = some "42" := by
  refine ⟨?_, ?_, ?_, ?_, ?_, ?_⟩ <;> decide

/-- C17 (the code at the failing input): job "41" is polling; its call
resolves with completed / 100 and `tick` publishes it, and before that update
is rendered the user clicks Cancel.  The render that shows the record has
phase idle, so the hook is disabled and keeps the record.  The user presses
Create and `createGame` returns the id "42": in the render in which job "42"
enters polling the hook still holds the record of job "41", and the
finish-flow effect of that commit takes it for the status of job "42": the
phase becomes done, `onDone` is called and the guard records "42", although
the only call for job "42", the `getGame` issued in that very commit, has not
returned.  When job "41" completes without such a click the hook has cleared
its data before job "42" enters polling, and the finish-flow effect waits. -/
theorem createPanel_stale_result_completes_new_job :
    (staleIdle.phase = Phase.idle ∧ staleIdle.jobId = none ∧
      staleIdle.status = some (completedRecord "41" (some 100)) ∧
      staleIdle.onDoneCalls = 0) ∧
    (staleCreate.2 = [StoreCall.createGame "first"] ∧
      stalePolling.1.phase = Phase.polling ∧
      stalePolling.1.jobId = some "42" ∧
      stalePolling.1.notifiedForId = none ∧
      stalePolling.1.status = some (completedRecord "41" (some 100))) ∧
    (staleCommitted.2 = [StoreCall.getGame "42"] ∧
      staleCommitted.1.phase = Phase.done ∧
      staleCommitted.1.onDoneCalls = 1 ∧
      staleCommitted.1.notifiedForId = some "42") ∧
    ((doneState "first" "41" (completedRecord "41" (some 100))).status = none ∧
      secondPolling.1.phase = Phase.polling ∧
      secondPolling.1.status = none ∧
      secondCommitted.1.phase = Phase.polling ∧
      secondCommitted.1.onDoneCalls = 1 ∧
      secondCommitted.1.notifiedForId = none) := by
  refine ⟨⟨?_, ?_, ?_, ?_⟩, ⟨?_, ?_, ?_, ?_, ?_⟩, ⟨?_, ?_, ?_, ?_⟩, ⟨?_, ?_, ?_, ?_, ?_, ?_⟩⟩ <;>
    decide

end GameWizard

namespace GameWizard

/-! ## The optimistic value stays below 100 -/

section TickerCeiling

theorem tickerStep_lt (p : ℚ) : tickerStep p < 100 := by
  unfold tickerStep
  split
  · linarith
  · norm_num

theorem importTickerStep_lt (p : ℚ) : importTickerStep p < 100 := by
  unfold importTickerStep
  split
  · norm_num
  · have h95 : p < 95 := lt_of_not_le (by assumption)
    linarith

theorem safetyEffect_resting (st : CreateState)
    (h : st.phase = Phase.idle ∨ st.phase = Phase.done ∨ st.phase = Phase.error) :
    safetyEffect st = { st with inFlight := false, ticker := false, optProgress := 0 } := by
  simp [safetyEffect, h]

theorem statusRender_optProgress_lt (st : CreateState) (rec : Option JobRecord)
    (hopt : st.optProgress < 100) (hrec : ∀ x, serverProgress rec = some x → x < 100) :
    (statusRender st rec).optProgress < 100 := by
  unfold statusRender
  split
  · exact hopt
  · simp only [snapForwardEffect]
    split
    · next x hx => exact max_lt hopt (hrec x hx)
    · exact hopt

theorem deliverStatus_cells (st : CreateState) (rec : Option JobRecord) :
    deliverStatus st rec = st ∨
      ((deliverStatus st rec).status = rec ∧
        ((deliverStatus st rec).optProgress = (statusRender st rec).optProgress ∨
          (deliverStatus st rec).optProgress = 0)) := by
  by_cases hchange : rec = none ∧ st.status = none
  · left
    simp [deliverStatus, hchange]
  · right
    by_cases h : st.phase ≠ Phase.polling ∨ completes rec = false ∨
        idTruthy st.jobId = false ∨ st.notifiedForId = st.jobId
    · rw [deliverStatus_eq_of_skip st rec hchange h]
      refine ⟨?_, Or.inl ?_⟩
      · exact ((finishEffectCleanup_fields (statusRender st rec)).1).trans
          (statusRender_fields st rec).1
      · exact (finishEffectCleanup_fields (statusRender st rec)).2.2.2.2.1
    · simp only [not_or] at h
      obtain ⟨hphase, hcomp, hid, hnot⟩ := h
      have hphase : st.phase = Phase.polling := not_not.mp hphase
      have hcomp : completes rec = true := by simpa using hcomp
      have hid : idTruthy st.jobId = true := by simpa using hid
      cases rec with
      | none => simp [completes] at hcomp
      | some r =>
        obtain ⟨r1, r2, r3, r4, _⟩ := statusRender_fields st (some r)
        obtain ⟨c1, c2, c3, c4, _, _⟩ :=
          finishEffectCleanup_fields (statusRender st (some r))
        obtain ⟨f1, _, _, f4, _, _, _, _⟩ :=
          finishEffect_fire (finishEffectCleanup (statusRender st (some r))) r (c1.trans r1)
            (by rw [c2, r2]; exact hphase) hcomp (by rw [c3, r3]; exact hid)
            (by rw [c3, c4, r3, r4]; exact hnot)
        have hne : ¬ (finishEffect (finishEffectCleanup (statusRender st (some r)))).phase =
            st.phase := by
          rw [f1, hphase]
          decide
        have hd : deliverStatus st (some r) =
            phaseCommit (finishEffect (finishEffectCleanup (statusRender st (some r)))) := by
          unfold deliverStatus
          rw [if_neg hchange]
          exact if_neg hne
        have hpc := phaseCommit_eq_of_not_polling
          (finishEffect (finishEffectCleanup (statusRender st (some r))))
          (by rw [f1]; decide)
        have hrest := safetyEffect_resting
          { finishEffectCleanup
              (finishEffect (finishEffectCleanup (statusRender st (some r)))) with
            finishCleanup := false }
          (Or.inr (Or.inl (by
            show (finishEffectCleanup
              (finishEffect (finishEffectCleanup (statusRender st (some r))))).phase = Phase.done
            rw [(finishEffectCleanup_fields _).2.1]
            exact f1)))
        rw [hd, hpc, hrest]
        refine ⟨?_, Or.inr rfl⟩
        show (finishEffectCleanup
          (finishEffect (finishEffectCleanup (statusRender st (some r))))).status = some r
        rw [(finishEffectCleanup_fields _).1, f4]
        exact c1.trans r1

/-- The optimistic value and the progress of the held record are below 100. -/
theorem progress_lt_of_below (st : CreateState) (hopt : st.optProgress < 100)
    (hst : ∀ x, serverProgress st.status = some x → x < 100) : progress st < 100 := by
  unfold progress
  have hserver : (serverProgress st.status).getD 0 < 100 := by
    cases hs : serverProgress st.status with
    | none => norm_num
    | some x => exact hst x hs
  exact max_lt (by norm_num) (lt_of_le_of_lt (min_le_right _ _) (max_lt hserver hopt))

theorem applyEvent_below (st : CreateState) (ev : CreateEvent)
    (hopt : st.optProgress < 100)
    (hst : ∀ x, serverProgress st.status = some x → x < 100)
    (hev : ∀ (r : JobRecord) (p : ℚ), ev = CreateEvent.poll (some r) → r.progress = some p →
      p < 100) :
    (applyEvent st ev).optProgress < 100 ∧
      ∀ x, serverProgress (applyEvent st ev).status = some x → x < 100 := by
  cases ev with
  | tick =>
    show (tickerTick st).optProgress < 100 ∧
      ∀ x, serverProgress (tickerTick st).status = some x → x < 100
    unfold tickerTick
    by_cases ht : st.ticker = true
    · rw [if_pos ht]
      exact ⟨tickerStep_lt _, hst⟩
    · rw [if_neg ht]
      exact ⟨hopt, hst⟩
  | poll rec =>
    have hrec : ∀ x, serverProgress rec = some x → x < 100 := by
      intro x hx
      cases rec with
      | none => simp [serverProgress] at hx
      | some r => exact hev r x rfl hx
    show (deliverStatus st rec).optProgress < 100 ∧
      ∀ x, serverProgress (deliverStatus st rec).status = some x → x < 100
    rcases deliverStatus_cells st rec with heq | ⟨hs, ho⟩
    · rw [heq]
      exact ⟨hopt, hst⟩
    · rw [hs]
      refine ⟨?_, hrec⟩
      rcases ho with ho | ho
      · rw [ho]
        exact statusRender_optProgress_lt st rec hopt hrec
      · rw [ho]
        norm_num

theorem runEvents_full (evs : List CreateEvent) :
    ∀ st : CreateState, st.optProgress < 100 →
      (∀ x, serverProgress st.status = some x → x < 100) →
      progress (runEvents st evs) = 100 → reportedFull evs := by
  induction evs with
  | nil =>
    intro st hopt hst hp
    have hlt := progress_lt_of_below st hopt hst
    have hp100 : progress st = 100 := hp
    rw [hp100] at hlt
    exact absurd hlt (lt_irrefl _)
  | cons ev evs ih =>
    intro st hopt hst hp
    by_cases hfull : ∃ (r : JobRecord) (p : ℚ), ev = CreateEvent.poll (some r) ∧
        r.progress = some p ∧ 100 ≤ p
    · obtain ⟨r, p, hev, hr, hp100⟩ := hfull
      exact ⟨r, p, by rw [hev]; exact List.mem_cons_self _ _, hr, hp100⟩
    · have hev : ∀ (r : JobRecord) (p : ℚ), ev = CreateEvent.poll (some r) →
          r.progress = some p → p < 100 := by
        intro r p h1 h2
        by_contra hge
        exact hfull ⟨r, p, h1, h2, not_lt.mp hge⟩
      obtain ⟨ho, hs⟩ := applyEvent_below st ev hopt hst hev
      obtain ⟨r, p, hmem, hr, hp100⟩ := ih (applyEvent st ev) ho hs hp
      exact ⟨r, p, List.mem_cons_of_mem _ hmem, hr, hp100⟩

end TickerCeiling

end GameWizard

namespace GameWizard

section ImportCeiling

theorem not_completed_progress (r : JobRecord) (h : isCompleted r = false) :
    ∀ x, r.progress = some x → x < 100 := by
  intro x hx
  unfold isCompleted at h
  rw [hx] at h
  simp only [Bool.or_eq_false_iff, decide_eq_false_iff_not, not_le] at h
  exact h.2

theorem importFinishEffect_cases (st : ImportState) :
    (importFinishEffect st).phase = ImportPhase.done ∨
      ((importFinishEffect st).phase = st.phase ∧
        (importFinishEffect st).optimistic = st.optimistic ∧
        (importFinishEffect st).status = st.status ∧
        ∀ x, serverProgress st.status = some x → x < 100) := by
  unfold importFinishEffect
  cases hs : st.status with
  | none =>
    right
    refine ⟨rfl, rfl, rfl, ?_⟩
    intro x hx
    simp [serverProgress] at hx
  | some r =>
    cases hc : isCompleted r with
    | true =>
      left
      simp [hs, hc]
    | false =>
      right
      simp only [hs, hc]
      exact ⟨rfl, rfl, rfl, fun x hx => not_completed_progress r hc x hx⟩

theorem importApply_inv (st : ImportState) (ev : ImportEvent)
    (h : st.phase = ImportPhase.done ∨
      (st.optimistic < 100 ∧ ∀ x, serverProgress st.status = some x → x < 100)) :
    (importApply st ev).phase = ImportPhase.done ∨
      ((importApply st ev).optimistic < 100 ∧
        ∀ x, serverProgress (importApply st ev).status = some x → x < 100) := by
  cases ev with
  | tick =>
    show (importTick st).phase = ImportPhase.done ∨
      ((importTick st).optimistic < 100 ∧
        ∀ x, serverProgress (importTick st).status = some x → x < 100)
    unfold importTick
    by_cases ht : st.ticker = true
    · rw [if_pos ht]
      rcases h with h | h
      · exact Or.inl h
      · exact Or.inr ⟨importTickerStep_lt _, h.2⟩
    · rw [if_neg ht]
      exact h
  | poll rec =>
    show (importDeliver st rec).phase = ImportPhase.done ∨
      ((importDeliver st rec).optimistic < 100 ∧
        ∀ x, serverProgress (importDeliver st rec).status = some x → x < 100)
    unfold importDeliver
    by_cases hchange : rec = none ∧ st.status = none
    · rw [if_pos hchange]
      exact h
    · rw [if_neg hchange]
      rcases importFinishEffect_cases { st with status := rec } with hd | ⟨h1, h2, h3, h4⟩
      · exact Or.inl hd
      · rcases h with h | h
        · left
          rw [h1]
          exact h
        · right
          rw [h2, h3]
          exact ⟨h.1, h4⟩

theorem importRun_inv (evs : List ImportEvent) :
    ∀ st : ImportState,
      (st.phase = ImportPhase.done ∨
        (st.optimistic < 100 ∧ ∀ x, serverProgress st.status = some x → x < 100)) →
      ((importRun st evs).phase = ImportPhase.done ∨
        ((importRun st evs).optimistic < 100 ∧
          ∀ x, serverProgress (importRun st evs).status = some x → x < 100)) := by
  induction evs with
  | nil =>
    intro st h
    exact h
  | cons ev evs ih =>
    intro st h
    exact ih (importApply st ev) (importApply_inv st ev h)

theorem importProgress_lt_of_below (st : ImportState) (hopt : st.optimistic < 100)
    (hst : ∀ x, serverProgress st.status = some x → x < 100) : importProgress st < 100 := by
  unfold importProgress
  have hserver : (serverProgress st.status).getD 0 < 100 := by
    cases hs : serverProgress st.status with
    | none => norm_num
    | some x => exact hst x hs
  exact lt_of_le_of_lt (min_le_right _ _) (max_lt (by norm_num) (max_lt hserver hopt))

end ImportCeiling

/-- C16: the ticker updaters of `CreatePanel` and of `ImportPanel` yield a
value below 100 for every argument, in particular for every value below 100.
In `CreatePanel`, from a state whose optimistic value and held record are
below 100, after any sequence of ticker ticks and poll results the displayed
progress equals 100 only if some poll result of the sequence reported a
progress of at least 100.  In `ImportPanel`, from such a state, after any
sequence of ticks and poll results the displayed progress is below 100
whenever the phase is polling. -/
theorem ticker_never_reaches_full :
    (∀ p : ℚ, p < 100 → tickerStep p < 100) ∧
    (∀ p : ℚ, p < 100 → importTickerStep p < 100) ∧
    (∀ (st : CreateState) (evs : List CreateEvent), st.optProgress < 100 →
      (∀ x, serverProgress st.status = some x → x < 100) →
      progress (runEvents st evs) = 100 → reportedFull evs) ∧
    (∀ (st : ImportState) (evs : List ImportEvent), st.optimistic < 100 →
      (∀ x, serverProgress st.status = some x → x < 100) →
      (importRun st evs).phase = ImportPhase.polling →
      importProgress (importRun st evs) < 100) := by
  refine ⟨fun p _ => tickerStep_lt p, fun p _ => importTickerStep_lt p, ?_, ?_⟩
  · intro st evs hopt hst hp
    exact runEvents_full evs st hopt hst hp
  · intro st evs hopt hst hphase
    rcases importRun_inv evs st (Or.inr ⟨hopt, hst⟩) with hd | ⟨h1, h2⟩
    · rw [hphase] at hd
      exact absurd hd (by decide)
    · exact importProgress_lt_of_below _ h1 h2

/-- C16 witness: the step from 99 in both panels; in `CreatePanel`, job "42"
polling, a tick and then the record completed / 100, after which the
displayed progress is 100; in `ImportPanel`, job "42" polling, a tick and the
record processing / 30. -/
theorem ticker_never_reaches_full_witness :
    tickerStep 99 < 100 ∧ importTickerStep 99 < 100 ∧
      progress (runEvents (pollingStart "demo" "42")
        [CreateEvent.tick, CreateEvent.poll (some (completedRecord "42" (some 100)))]) = 100 ∧
      reportedFull
        [CreateEvent.tick, CreateEvent.poll (some (completedRecord "42" (some 100)))] ∧
      (importRun (importPollingStart "42")
        [ImportEvent.tick, ImportEvent.poll (some (processing "42" 30))]).phase =
          ImportPhase.polling ∧
      importProgress (importRun (importPollingStart "42")
        [ImportEvent.tick, ImportEvent.poll (some (processing "42" 30))]) < 100 :=
  have hp : progress (runEvents (pollingStart "demo" "42")
      [CreateEvent.tick, CreateEvent.poll (some (completedRecord "42" (some 100)))]) = 100 := by
    have ht : tickerTick (pollingStart "demo" "42") =
        { pollingStart "demo" "42" with optProgress := 3 } := by
      simp [tickerTick, pollingStart, tickerStep]
      norm_num
    simp only [runEvents, List.foldl, applyEvent, ht]
    decide
  have hphase : (importRun (importPollingStart "42")
      [ImportEvent.tick, ImportEvent.poll (some (processing "42" 30))]).phase =
        ImportPhase.polling := by
    simp only [importRun, List.foldl, importApply,
      importDeliver_processing _ "42" 30 (by norm_num)]
    simp [importTick, importPollingStart]
  ⟨ticker_never_reaches_full.1 99 (by norm_num),
    ticker_never_reaches_full.2.1 99 (by norm_num), hp,
    ticker_never_reaches_full.2.2.1 (pollingStart "demo" "42")
      [CreateEvent.tick, CreateEvent.poll (some (completedRecord "42" (some 100)))]
      (by norm_num [pollingStart]) (by intro x hx; simp [pollingStart, serverProgress] at hx) hp,
    hphase,
    ticker_never_reaches_full.2.2.2 (importPollingStart "42")
      [ImportEvent.tick, ImportEvent.poll (some (processing "42" 30))]
      (by norm_num [importPollingStart])
      (by intro x hx; simp [importPollingStart, serverProgress] at hx) hphase⟩

end GameWizard
